import Mathlib

/-!
# Remote function invocation (`RemoteFunction.hpp`)

A shallow embedding of `blackbone::RemoteFunctionBase<R, Args...>` and of the
`DECLPFN` wrapper generated around it.

* `CallArguments` and its three constructors and `set` are pure functions on lists.
* `RemoteFunctionBase::Call` is a state-passing function.  Everything it invokes on
  `_process.remote()`, `_process.memory()` and on the assembler is declared outside
  this header, so these operations are the fields of `Process`, left arbitrary.
* Every operation `Call` performs on a collaborator is appended to a trace, so that
  "was (not) invoked" is a statement about the produced events.
* The loop that reads the argument buffers back visits the elements of the argument
  vector as they are when their turn comes: a read-back writes into the memory of the
  calling process, where these elements live.
-/

namespace blackbone

/-! ## Platform types -/

/-- `NTSTATUS` is a signed 32-bit integer (`LONG`). -/
abbrev NTSTATUS := Int

/-- The value `STATUS_SUCCESS` of the platform headers. -/
def STATUS_SUCCESS : NTSTATUS := 0

/-- The platform macro `NT_SUCCESS(Status)`, that is `((NTSTATUS)(Status)) >= 0`. -/
def NT_SUCCESS (status : NTSTATUS) : Bool := decide (0 ≤ status)

/-- `ThreadPtr` is a shared pointer to a thread object; `none` is `nullptr`, and two
non-null pointers are equal when they point to the same thread object. -/
abbrev ThreadPtr := Option Nat

/-- Calling-convention tags used by the `DECLPFN` instantiations. -/
inductive eCalligConvention
  | cc_cdecl
  | cc_stdcall
  | cc_thiscall
  | cc_fastcall
  deriving DecidableEq, Repr

/-- Return shapes handed to code generation. -/
inductive eReturnType
  | rt_int32
  | rt_int64
  | rt_float
  | rt_double
  | rt_struct
  deriving DecidableEq, Repr

/-- Worker modes `Call` passes to `CreateRPCEnvironment`. -/
inductive WorkerThreadMode
  | Worker_None
  | Worker_CreateNew
  deriving DecidableEq, Repr

/-! ## Argument descriptors -/

/-- Modelled from the spec: the `eType` tag of `AsmVariant`, which is declared outside
`RemoteFunction.hpp`.  The kinds are the four of the data model: immediate integer,
immediate float, immediate double and blob pointer (`dataPtr`, the only tag the header
names). -/
inductive AsmVariant.eType
  | imm
  | imm_float
  | imm_double
  | dataPtr
  deriving DecidableEq, Repr

/-- Modelled from the spec: `AsmVariant`, declared outside `RemoteFunction.hpp`, with
the members the header reads and writes: `type`, `size`, `imm_val` (immediate payload,
or the address of the local buffer), `new_imm_val` (the remote address slot) and `buf`
(the bytes of the owned buffer). -/
structure AsmVariant where
  type : AsmVariant.eType
  size : Nat
  imm_val : Nat
  new_imm_val : Nat
  buf : List Nat
  deriving DecidableEq, Repr

/-! ## `CallArguments` -/

/-- The member `std::vector<AsmVariant> arguments`. -/
structure CallArguments where
  arguments : List AsmVariant
  deriving DecidableEq, Repr

namespace CallArguments

/-- `CallArguments( const Args&... args ) : arguments{ AsmVariant( args )... }`.
The converting constructor of `AsmVariant` is the parameter `toVariant`. -/
def ofArgs {β : Type} (toVariant : β → AsmVariant) (args : List β) : CallArguments :=
  ⟨args.map toVariant⟩

/-- `CallArguments( const std::tuple<Args...>& args, std::index_sequence<S...> )`,
initialising `arguments{ std::get<S>( args )... }`: one descriptor per index of `S`,
converted out of the tuple element at that index. -/
def ofTuple {β : Type} (toVariant : β → AsmVariant) (args : List β)
    (S : List (Fin args.length)) : CallArguments :=
  ⟨S.map (fun i => toVariant (args.get i))⟩

/-- `std::index_sequence_for<Args...>()`: the indices `0, 1, ..., sizeof...(Args) - 1`. -/
def index_sequence_for {β : Type} (args : List β) : List (Fin args.length) :=
  List.finRange args.length

/-- The loop of the `initializer_list` constructor, `pos` being the position in
`arguments` of the first element of the list still to be visited.  `bufData i` is the
address `arguments[i].buf.data()` of the buffer storage of the element at position `i`
of the freshly copied vector. -/
def fixBuffers (bufData : Nat → Nat) : Nat → List AsmVariant → List AsmVariant
  | _, [] => []
  | pos, arg :: rest =>
    (if !arg.buf.isEmpty then { arg with imm_val := bufData pos } else arg)
      :: fixBuffers bufData (pos + 1) rest

/-- `CallArguments( const std::initializer_list<AsmVariant>& args ) : arguments{ args }`
followed by the loop that re-points `imm_val` of every element with a non-empty `buf`. -/
def ofList (bufData : Nat → Nat) (args : List AsmVariant) : CallArguments :=
  ⟨fixBuffers bufData 0 args⟩

/-- `static_cast<size_t>( pos )` for an `int pos`, `size_t` being `w` bits wide. -/
def toSizeT (w : Nat) (pos : Int) : Nat := (pos % (2 : Int) ^ w).toNat

/-- `void set( int pos, const AsmVariant& newVal )`:
`if (arguments.size() > static_cast<size_t>(pos)) arguments[pos] = newVal;`. -/
def set (w : Nat) (self : CallArguments) (pos : Int) (newVal : AsmVariant) :
    CallArguments :=
  if self.arguments.length > toSizeT w pos then
    ⟨self.arguments.set (toSizeT w pos) newVal⟩
  else
    self

end CallArguments

/-! ## Return shape -/

/-- What `Call` asks of a C++ type.  `float_`, `double_`, `longDouble` and `void_` stand
for exactly these unqualified types; every other type (integers, pointers, classes,
cv-qualified types) is `other`. -/
inductive TypeKind
  | void_
  | float_
  | double_
  | longDouble
  | other
  deriving DecidableEq, Repr

/-- A C++ type as seen by the `if constexpr` chain of `Call`: the type referred to
(`kind`), `sizeof` of the type (for a reference type, of the type referred to) and
`std::is_reference_v`. -/
structure CppType where
  kind : TypeKind
  size : Nat
  isReference : Bool
  deriving DecidableEq, Repr

/-- The type `int`, four bytes wide. -/
def CppType.int : CppType := ⟨TypeKind.other, 4, false⟩

/-- `std::is_same_v<T, K>` for `K` one of `void`, `float`, `double`, `long double`. -/
def CppType.isSame (T : CppType) (k : TypeKind) : Bool :=
  decide (T.kind = k) && !T.isReference

/-- `using ReturnType = std::conditional_t<std::is_same_v<R, void>, int, R>`. -/
def ReturnType (R : CppType) : CppType :=
  if R.isSame TypeKind.void_ then CppType.int else R

/-- The `if constexpr` chain "Deduce return type" of `Call`, on `ReturnType`. -/
def deduceRetType (RT : CppType) : eReturnType :=
  let isFloat := RT.isSame TypeKind.float_
  let isDouble := RT.isSame TypeKind.double_ || RT.isSame TypeKind.longDouble
  if isFloat then eReturnType.rt_float
  else if isDouble then eReturnType.rt_double
  else if RT.size = 8 then eReturnType.rt_int64
  else if !RT.isReference && decide (RT.size > 8) then eReturnType.rt_struct
  else eReturnType.rt_int32

/-! ## The collaborators of `Call` -/

/-- One operation `Call` performs on `_process.remote()`, `_process.memory()` or the
code generator, with the arguments it was given.  The getters `isWow64`, `getWorker`,
`make`, `getCodeSize` and the factory `GetAssembler` leave no event. -/
inductive Event
  | createRPCEnvironment (mode : WorkerThreadMode) (bThread : Bool)
  | prepareCallAssembly (pfn : Nat) (args : List AsmVariant) (conv : eCalligConvention)
      (retType : eReturnType)
  | execInNewThread (code size : Nat)
  | execInWorkerThread (code size : Nat)
  | execInAnyThread (code size : Nat) (thread : ThreadPtr)
  | getCallResult
  | read (address size buffer : Nat)
  deriving DecidableEq, Repr

/-- An event is the run of the stub on one of the three execution vehicles. -/
def Event.isVehicle : Event → Bool
  | Event.execInNewThread _ _ => true
  | Event.execInWorkerThread _ _ => true
  | Event.execInAnyThread _ _ _ => true
  | _ => false

/-- An event is a code generation. -/
def Event.isPrepare : Event → Bool
  | Event.prepareCallAssembly _ _ _ _ => true
  | _ => false

/-- An event is a read-back of an argument buffer. -/
def Event.isRead : Event → Bool
  | Event.read _ _ _ => true
  | _ => false

/-- The memory of the calling process: the byte at every address. -/
abbrev LocalMem := Nat → Nat

/-- The operations `Call` uses and this header does not define.  `σ` is the state of
the target process together with its RPC environment, `α` the state of the assembler
returned by `AsmFactory::GetAssembler`, `ρ` the values of `ReturnType`.

* `PrepareCallAssembly` takes `args.arguments` by reference: it returns the updated
  descriptors (it is what fills `new_imm_val`), and it may read the calling process's
  memory, where the buffers of the arguments live.
* `ExecIn...` return the status and the raw value stored in `tmpResult`.
* `GetCallResult` takes `result` by reference: it gets the current value and returns
  the value it leaves there.
* `Read addr size dst` writes through the pointer `dst` into the calling process's
  memory.  The elements of `args.arguments` are objects in that memory too, so `Read`
  gets the bytes and the elements of the vector, and returns its status and both as
  they are after it (as many elements as it got: a write changes elements, not
  their number). -/
structure Process (σ α ρ : Type) where
  isWow64 : σ → Bool
  GetAssembler : Bool → α
  make : α → Nat
  getCodeSize : α → Nat
  getWorker : σ → ThreadPtr
  CreateRPCEnvironment : WorkerThreadMode → Bool → σ → NTSTATUS × σ
  PrepareCallAssembly : α → Nat → List AsmVariant → eCalligConvention → eReturnType →
    LocalMem → σ → α × List AsmVariant × σ
  ExecInNewThread : Nat → Nat → σ → NTSTATUS × Nat × σ
  ExecInWorkerThread : Nat → Nat → σ → NTSTATUS × Nat × σ
  ExecInAnyThread : Nat → Nat → ThreadPtr → σ → NTSTATUS × Nat × σ
  GetCallResult : ρ → σ → NTSTATUS × ρ × σ
  Read : Nat → Nat → Nat → σ → LocalMem → List AsmVariant →
    NTSTATUS × LocalMem × List AsmVariant

/-- What a call can change outside its own locals: the target process, the memory of
the calling process, and the record of the operations performed so far. -/
structure Machine (σ : Type) where
  remote : σ
  localMem : LocalMem
  trace : List Event

/-- `call_result_t<T>( result, status )`. -/
structure call_result_t (ρ : Type) where
  result : ρ
  status : NTSTATUS
  deriving DecidableEq, Repr

/-- What `Call` leaves behind: the returned outcome, the argument list (taken by
reference) and the machine. -/
structure CallOutput (σ ρ : Type) where
  ret : call_result_t ρ
  args : CallArguments
  machine : Machine σ

namespace RemoteFunctionBase

variable {σ α ρ : Type}

/-- Line 73: `contextThread == _process.remote().getWorker() ? Worker_CreateNew : Worker_None`. -/
def Call.mode (P : Process σ α ρ) (contextThread : ThreadPtr) (s : σ) : WorkerThreadMode :=
  if contextThread = P.getWorker s then WorkerThreadMode.Worker_CreateNew
  else WorkerThreadMode.Worker_None

/-- Lines 72-74, "Ensure RPC environment exists": the status and the machine after
`CreateRPCEnvironment( mode, contextThread != nullptr )`. -/
def Call.env (P : Process σ α ρ) (contextThread : ThreadPtr) (m : Machine σ) :
    NTSTATUS × Machine σ :=
  let mode := Call.mode P contextThread m.remote
  let r := P.CreateRPCEnvironment mode contextThread.isSome m.remote
  (r.1, { m with remote := r.2,
                 trace := m.trace ++ [Event.createRPCEnvironment mode contextThread.isSome] })

/-- Lines 78-94: the return shape is deduced and `PrepareCallAssembly( *a, _ptr,
args.arguments, _conv, retType )` runs; whatever it returns is discarded.  Gives the
assembler, the argument list and the machine after it. -/
def Call.prepare (P : Process σ α ρ) (R : CppType) (ptr : Nat) (conv : eCalligConvention)
    (a : α) (args : CallArguments) (m : Machine σ) : α × CallArguments × Machine σ :=
  let retType := deduceRetType (ReturnType R)
  let r := P.PrepareCallAssembly a ptr args.arguments conv retType m.localMem m.remote
  (r.1, ⟨r.2.1⟩,
    { m with remote := r.2.2,
             trace := m.trace ++ [Event.prepareCallAssembly ptr args.arguments conv retType] })

/-- Lines 96-108, "Choose execution thread": the status, `tmpResult` and the machine
after the chosen `ExecIn...( (*a)->make(), (*a)->getCodeSize(), tmpResult, ... )`. -/
def Call.exec (P : Process σ α ρ) (a : α) (contextThread : ThreadPtr) (m : Machine σ) :
    NTSTATUS × Nat × Machine σ :=
  if contextThread = none then
    let r := P.ExecInNewThread (P.make a) (P.getCodeSize a) m.remote
    let e := Event.execInNewThread (P.make a) (P.getCodeSize a)
    (r.1, r.2.1, { m with remote := r.2.2, trace := m.trace ++ [e] })
  else if contextThread = P.getWorker m.remote then
    let r := P.ExecInWorkerThread (P.make a) (P.getCodeSize a) m.remote
    let e := Event.execInWorkerThread (P.make a) (P.getCodeSize a)
    (r.1, r.2.1, { m with remote := r.2.2, trace := m.trace ++ [e] })
  else
    let r := P.ExecInAnyThread (P.make a) (P.getCodeSize a) contextThread m.remote
    let e := Event.execInAnyThread (P.make a) (P.getCodeSize a) contextThread
    (r.1, r.2.1, { m with remote := r.2.2, trace := m.trace ++ [e] })

/-- Line 111, second operand: `status = _process.remote().GetCallResult( result )`. -/
def Call.getResult (P : Process σ α ρ) (result : ρ) (m : Machine σ) :
    NTSTATUS × ρ × Machine σ :=
  let r := P.GetCallResult result m.remote
  (r.1, r.2.1, { m with remote := r.2.2, trace := m.trace ++ [Event.getCallResult] })

/-- Lines 116-117, the body of the loop "Update arguments" for the element `arg`,
`cur` being the elements of `args.arguments` as they are now; the status of `Read` is
discarded. -/
def Call.updateArg (P : Process σ α ρ) (m : Machine σ) (cur : List AsmVariant)
    (arg : AsmVariant) : Machine σ × List AsmVariant :=
  if arg.type = AsmVariant.eType.dataPtr then
    let r := P.Read arg.new_imm_val arg.size arg.imm_val m.remote m.localMem cur
    ({ m with localMem := r.2.1,
              trace := m.trace ++ [Event.read arg.new_imm_val arg.size arg.imm_val] },
      r.2.2)
  else
    (m, cur)

/-- Lines 115-117, `for (auto& arg : args.arguments)` with `n` elements still to visit,
the next one at position `i`: the bounds of the loop are fixed when it starts, and
each `arg` refers to the element as it is when its turn comes. -/
def Call.updateFrom (P : Process σ α ρ) :
    Nat → Nat → Machine σ × List AsmVariant → Machine σ × List AsmVariant
  | 0, _, st => st
  | n + 1, i, st =>
    match st.2[i]? with
    | some arg => Call.updateFrom P n (i + 1) (Call.updateArg P st.1 st.2 arg)
    | none => st

/-- Lines 114-117, "Update arguments": the machine and the argument list after the
loop. -/
def Call.update (P : Process σ α ρ) (args : CallArguments) (m : Machine σ) :
    Machine σ × CallArguments :=
  let r := Call.updateFrom P args.arguments.length 0 (m, args.arguments)
  (r.1, ⟨r.2⟩)

/-- `call_result_t<ReturnType> Call( CallArguments& args, ThreadPtr contextThread = nullptr )`
of `RemoteFunctionBase<R, Args...>`, with members `_process` (`P`), `_ptr`, `_conv`.
`ReturnType result = {}` is `default`; `m` is the machine the call starts in. -/
def Call [Inhabited ρ] (P : Process σ α ρ) (R : CppType) (ptr : Nat)
    (conv : eCalligConvention) (m : Machine σ) (args : CallArguments)
    (contextThread : ThreadPtr := none) : CallOutput σ ρ :=
  let result : ρ := default
  let a := P.GetAssembler (P.isWow64 m.remote)
  let env := Call.env P contextThread m
  if !NT_SUCCESS env.1 then
    ⟨⟨result, env.1⟩, args, env.2⟩
  else
    let pca := Call.prepare P R ptr conv a args env.2
    let exec := Call.exec P pca.1 contextThread pca.2.2
    if !NT_SUCCESS exec.1 then
      ⟨⟨result, exec.1⟩, pca.2.1, exec.2.2⟩
    else
      let gcr := Call.getResult P result exec.2.2
      if !NT_SUCCESS gcr.1 then
        ⟨⟨gcr.2.1, gcr.1⟩, pca.2.1, gcr.2.2⟩
      else
        let upd := Call.update P pca.2.1 gcr.2.2
        ⟨⟨gcr.2.1, STATUS_SUCCESS⟩, upd.2, upd.1⟩

/-- The call just before the stub runs: assembler, argument list and machine after
`CreateRPCEnvironment` and `PrepareCallAssembly`. -/
def Call.prepared (P : Process σ α ρ) (R : CppType) (ptr : Nat) (conv : eCalligConvention)
    (m : Machine σ) (args : CallArguments) (contextThread : ThreadPtr) :
    α × CallArguments × Machine σ :=
  Call.prepare P R ptr conv (P.GetAssembler (P.isWow64 m.remote)) args
    (Call.env P contextThread m).2

/-- The call just after the stub ran: status of the execution vehicle, `tmpResult`
and machine. -/
def Call.executed (P : Process σ α ρ) (R : CppType) (ptr : Nat) (conv : eCalligConvention)
    (m : Machine σ) (args : CallArguments) (contextThread : ThreadPtr) :
    NTSTATUS × Nat × Machine σ :=
  Call.exec P (Call.prepared P R ptr conv m args contextThread).1 contextThread
    (Call.prepared P R ptr conv m args contextThread).2.2

/-- The call just after `GetCallResult( result )` on the still default `result`. -/
def Call.fetched [Inhabited ρ] (P : Process σ α ρ) (R : CppType) (ptr : Nat)
    (conv : eCalligConvention) (m : Machine σ) (args : CallArguments)
    (contextThread : ThreadPtr) : NTSTATUS × ρ × Machine σ :=
  Call.getResult P default (Call.executed P R ptr conv m args contextThread).2.2

end RemoteFunctionBase

/-! ## The wrapper generated by `DECLPFN( CALL_OPT, CALL_DEF )` -/

namespace RemoteFunction

variable {σ α ρ β : Type}

/-- `Call( const Args&... args )`:
`CallArguments a( args... ); return RemoteFunctionBase::Call( a );`. -/
def Call_args [Inhabited ρ] (P : Process σ α ρ) (R : CppType) (ptr : Nat)
    (CALL_DEF : eCalligConvention) (toVariant : β → AsmVariant) (m : Machine σ)
    (args : List β) : CallOutput σ ρ :=
  RemoteFunctionBase.Call P R ptr CALL_DEF m (CallArguments.ofArgs toVariant args)

/-- `Call( const std::tuple<Args...>& args, ThreadPtr contextThread = nullptr )`:
`CallArguments a( args, std::index_sequence_for<Args...>() );
return RemoteFunctionBase::Call( a, contextThread );`. -/
def Call_tuple [Inhabited ρ] (P : Process σ α ρ) (R : CppType) (ptr : Nat)
    (CALL_DEF : eCalligConvention) (toVariant : β → AsmVariant) (m : Machine σ)
    (args : List β) (contextThread : ThreadPtr := none) : CallOutput σ ρ :=
  RemoteFunctionBase.Call P R ptr CALL_DEF m
    (CallArguments.ofTuple toVariant args (CallArguments.index_sequence_for args))
    contextThread

/-- `Call( const std::initializer_list<AsmVariant>& args, ThreadPtr contextThread = nullptr )`:
`CallArguments a( args ); return RemoteFunctionBase::Call( a, contextThread );`. -/
def Call_list [Inhabited ρ] (P : Process σ α ρ) (R : CppType) (ptr : Nat)
    (CALL_DEF : eCalligConvention) (bufData : Nat → Nat) (m : Machine σ)
    (args : List AsmVariant) (contextThread : ThreadPtr := none) : CallOutput σ ρ :=
  RemoteFunctionBase.Call P R ptr CALL_DEF m (CallArguments.ofList bufData args)
    contextThread

/-- `Call( CallArguments& args, ThreadPtr contextThread = nullptr )`:
`return RemoteFunctionBase::Call( args, contextThread );`. -/
def Call [Inhabited ρ] (P : Process σ α ρ) (R : CppType) (ptr : Nat)
    (CALL_DEF : eCalligConvention) (m : Machine σ) (args : CallArguments)
    (contextThread : ThreadPtr := none) : CallOutput σ ρ :=
  RemoteFunctionBase.Call P R ptr CALL_DEF m args contextThread

/-- `operator()( const Args&... args )`:
`CallArguments a( args... ); return RemoteFunctionBase::Call( a );`. -/
def call_operator [Inhabited ρ] (P : Process σ α ρ) (R : CppType) (ptr : Nat)
    (CALL_DEF : eCalligConvention) (toVariant : β → AsmVariant) (m : Machine σ)
    (args : List β) : CallOutput σ ρ :=
  RemoteFunctionBase.Call P R ptr CALL_DEF m (CallArguments.ofArgs toVariant args)

end RemoteFunction

/-! ## Vocabulary of the properties -/

/-- Memory `mem` after the `size` bytes of `src` that start at `addr` were copied to
the addresses starting at `dst`. -/
def copyBytes (src : Nat → Nat) (addr size dst : Nat) (mem : LocalMem) : LocalMem :=
  fun x => if dst ≤ x ∧ x < dst + size then src (addr + (x - dst)) else mem x

/-- The read-backs of an argument list: for each `dataPtr` descriptor, in list order,
one read of `size` bytes from `new_imm_val` into `imm_val`. -/
def readBacks (args : List AsmVariant) : List Event :=
  (args.filter (fun arg => decide (arg.type = AsmVariant.eType.dataPtr))).map
    (fun arg => Event.read arg.new_imm_val arg.size arg.imm_val)

/-- The process `P` with another `Read` and with other raw values reported by the three
execution vehicles; statuses and effects on the target are those of `P`. -/
def Process.withReadAndRaw {σ α ρ : Type} (P : Process σ α ρ)
    (rd : Nat → Nat → Nat → σ → LocalMem → List AsmVariant →
      NTSTATUS × LocalMem × List AsmVariant)
    (rawNew rawWorker : Nat → Nat → σ → Nat) (rawAny : Nat → Nat → ThreadPtr → σ → Nat) :
    Process σ α ρ :=
  { P with
    Read := rd
    ExecInNewThread := fun c n s =>
      ((P.ExecInNewThread c n s).1, rawNew c n s, (P.ExecInNewThread c n s).2.2)
    ExecInWorkerThread := fun c n s =>
      ((P.ExecInWorkerThread c n s).1, rawWorker c n s, (P.ExecInWorkerThread c n s).2.2)
    ExecInAnyThread := fun c n t s =>
      ((P.ExecInAnyThread c n t s).1, rawAny c n t s, (P.ExecInAnyThread c n t s).2.2) }

/-! ## A concrete target

A process without worker thread whose state is its memory.  Code generation gives each
`dataPtr` argument a remote buffer of its own (at `0x1000`, `0x1100`, ...) and copies
the local buffer into it; the called function stores the byte `9` through its first
pointer argument and returns `5`.  The thread that runs a stub leaves at the remote
addresses `0`, `1`, `2` its kind (`1` new thread, `2` worker thread, `3` the given
thread), the address of the stub and the size of the stub. -/

/-- The part of code generation that stages the argument buffers in the target. -/
def Sample.stage (lm : LocalMem) : Nat → List AsmVariant → (Nat → Nat) →
    List AsmVariant × (Nat → Nat)
  | _, [], s => ([], s)
  | base, arg :: rest, s =>
    if arg.type = AsmVariant.eType.dataPtr then
      let r := Sample.stage lm (base + 256) rest (copyBytes lm arg.imm_val arg.size base s)
      ({ arg with new_imm_val := base } :: r.1, r.2)
    else
      let r := Sample.stage lm base rest s
      (arg :: r.1, r.2)

/-- The target's memory after a thread of kind `kind` ran the stub at `code` of `size`
bytes. -/
def Sample.runStub (kind code size : Nat) (s : Nat → Nat) : Nat → Nat :=
  fun x =>
    if x = 4096 then 9 else if x = 0 then kind else if x = 1 then code
    else if x = 2 then size else s x

/-- The concrete target process. -/
def Sample.process : Process (Nat → Nat) Unit Int where
  isWow64 := fun _ => false
  GetAssembler := fun _ => ()
  make := fun _ => 8192
  getCodeSize := fun _ => 64
  getWorker := fun _ => none
  CreateRPCEnvironment := fun _ _ s => (0, s)
  PrepareCallAssembly := fun a _ args _ _ lm s =>
    (a, (Sample.stage lm 4096 args s).1, (Sample.stage lm 4096 args s).2)
  ExecInNewThread := fun code size s => (0, 5, Sample.runStub 1 code size s)
  ExecInWorkerThread := fun code size s => (0, 5, Sample.runStub 2 code size s)
  ExecInAnyThread := fun code size _ s => (0, 5, Sample.runStub 3 code size s)
  GetCallResult := fun _ s => (0, 5, s)
  Read := fun addr size dst s lm cur => (0, copyBytes s addr size dst lm, cur)

/-- The machine before the call: the byte `1` at local address `100`, zero elsewhere
on both sides, nothing done yet. -/
def Sample.machine : Machine (Nat → Nat) :=
  ⟨fun _ => 0, fun x => if x = 100 then 1 else 0, []⟩

/-- A pointer argument to the one-byte local buffer at address `100`. -/
def Sample.ptrArg : AsmVariant := ⟨AsmVariant.eType.dataPtr, 1, 100, 0, []⟩

/-- The return type `int` of the called function. -/
def Sample.R : CppType := CppType.int

/-- The concrete target with a `GetCallResult` that stores `7` into `result` and then
reports `STATUS_UNSUCCESSFUL` (`0xC0000001`). -/
def Sample.failingFetch : Process (Nat → Nat) Unit Int :=
  { Sample.process with GetCallResult := fun _ s => (-1073741823, 7, s) }

/-- The concrete target with a `Read` that copies nothing and reports
`STATUS_UNSUCCESSFUL` (`0xC0000001`). -/
def Sample.failingRead : Process (Nat → Nat) Unit Int :=
  { Sample.process with Read := fun _ _ _ _ lm cur => (-1073741823, lm, cur) }

/-- The concrete target with a `CreateRPCEnvironment` that reports
`STATUS_UNSUCCESSFUL` (`0xC0000001`). -/
def Sample.failingEnv : Process (Nat → Nat) Unit Int :=
  { Sample.process with CreateRPCEnvironment := fun _ _ s => (-1073741823, s) }

/-- The concrete target with an `ExecInNewThread` that reports
`STATUS_UNSUCCESSFUL` (`0xC0000001`) and leaves the target as it was. -/
def Sample.failingExec : Process (Nat → Nat) Unit Int :=
  { Sample.process with ExecInNewThread := fun _ _ s => (-1073741823, 0, s) }

/-- The concrete target in a calling process where the type tag of the second element
of the argument vector is the byte at local address `100`: a read-back into that
address turns the element into an immediate. -/
def Sample.overlaidVector : Process (Nat → Nat) Unit Int :=
  { Sample.process with
    Read := fun addr size dst s lm cur =>
      (0, copyBytes s addr size dst lm,
        if dst = 100 then cur.set 1 ⟨AsmVariant.eType.imm, 0, 0, 0, []⟩ else cur) }

/-- Code generation that gives each `dataPtr` argument its remote buffer and copies
nothing into it. -/
def Sample.assign : Nat → List AsmVariant → List AsmVariant
  | _, [] => []
  | base, arg :: rest =>
    if arg.type = AsmVariant.eType.dataPtr then
      { arg with new_imm_val := base } :: Sample.assign (base + 256) rest
    else
      arg :: Sample.assign base rest

/-- The concrete target with a code generation that leaves the remote buffers as they
were, and a called function that stores nothing. -/
def Sample.unstaged : Process (Nat → Nat) Unit Int :=
  { Sample.process with
    PrepareCallAssembly := fun a _ args _ _ _ s => (a, Sample.assign 4096 args, s)
    ExecInNewThread := fun _ _ s => (0, 5, s) }

/-- The concrete target of a process that has the worker thread `1`. -/
def Sample.withWorker : Process (Nat → Nat) Unit Int :=
  { Sample.process with getWorker := fun _ => some 1 }

/-- A pointer argument to the one-byte local buffer at address `200`. -/
def Sample.ptrArg2 : AsmVariant := ⟨AsmVariant.eType.dataPtr, 1, 200, 0, []⟩

/-- A machine before the call: the byte `1` at local address `100`, the byte `2` at
local address `200`, zero elsewhere on both sides, nothing done yet. -/
def Sample.twoBuffers : Machine (Nat → Nat) :=
  ⟨fun _ => 0, fun x => if x = 100 then 1 else if x = 200 then 2 else 0, []⟩

/-! # Properties -/

open AsmVariant.eType eReturnType eCalligConvention WorkerThreadMode

/-! ## `CallArguments` -/

namespace CallArguments

theorem toSizeT_of_nonneg (w : Nat) (pos : Int) (h0 : 0 ≤ pos) (hlt : pos < (2 : Int) ^ w) :
    toSizeT w pos = pos.toNat := by
  unfold toSizeT
  rw [Int.emod_eq_of_lt h0 hlt]

theorem toSizeT_of_neg (w : Nat) (pos : Int) (hneg : pos < 0)
    (hge : -(2 : Int) ^ w ≤ pos) : (toSizeT w pos : Int) = pos + (2 : Int) ^ w := by
  unfold toSizeT
  have hpow : (0 : Int) < (2 : Int) ^ w := by positivity
  have h1 : pos % (2 : Int) ^ w = pos + (2 : Int) ^ w := by
    rw [← Int.add_emod_self]
    exact Int.emod_eq_of_lt (by omega) (by omega)
  rw [h1]
  exact Int.toNat_of_nonneg (by omega)

theorem pow31_le (w : Nat) (hw : w = 32 ∨ w = 64) : (2 : Int) ^ 31 < (2 : Int) ^ w := by
  rcases hw with rfl | rfl <;> norm_num

theorem fixBuffers_length (bufData : Nat → Nat) (args : List AsmVariant) (pos : Nat) :
    (fixBuffers bufData pos args).length = args.length := by
  induction args generalizing pos with
  | nil => rfl
  | cons a rest ih => simp [fixBuffers, ih]

theorem fixBuffers_getElem? (bufData : Nat → Nat) (args : List AsmVariant) (pos i : Nat) :
    (fixBuffers bufData pos args)[i]? =
      (args[i]?).map (fun arg =>
        if !arg.buf.isEmpty then { arg with imm_val := bufData (pos + i) } else arg) := by
  induction args generalizing pos i with
  | nil => simp [fixBuffers]
  | cons a rest ih =>
    cases i with
    | zero => simp [fixBuffers]
    | succ j =>
      simp only [fixBuffers, List.getElem?_cons_succ, ih]
      have : pos + 1 + j = pos + (j + 1) := by omega
      rw [this]

/-- C2: `set( pos, v )` keeps the length of the list; a position inside the list gets
`v` and every other position keeps its descriptor; a position at or past the end, or a
negative one, leaves the whole list as it was (the function has no error channel).
`pos` ranges over the values of an `int`, `size_t` is 32 or 64 bits wide, and the list
is no longer than a `std::vector` on that platform can be. -/
theorem set_spec (w : Nat) (hw : w = 32 ∨ w = 64) (L : CallArguments) (pos : Int)
    (v : AsmVariant) (hlo : -(2 : Int) ^ 31 ≤ pos) (hhi : pos < (2 : Int) ^ 31)
    (hlen : (L.arguments.length : Int) + (2 : Int) ^ 31 ≤ (2 : Int) ^ w) :
    (L.set w pos v).arguments.length = L.arguments.length ∧
    (0 ≤ pos → pos < L.arguments.length →
      (L.set w pos v).arguments[pos.toNat]? = some v ∧
      ∀ j : Nat, j ≠ pos.toNat → (L.set w pos v).arguments[j]? = L.arguments[j]?) ∧
    ((pos ≥ L.arguments.length ∨ pos < 0) → L.set w pos v = L) := by
  have hpw := pow31_le w hw
  refine ⟨?_, ?_, ?_⟩
  · unfold set
    split <;> simp
  · intro h0 hlt
    have hcast := toSizeT_of_nonneg w pos h0 (by omega)
    have hin : pos.toNat < L.arguments.length := by omega
    unfold set
    rw [hcast, if_pos hin]
    refine ⟨by simp [hin], ?_⟩
    intro j hj
    simp [List.getElem?_set, Ne.symm hj]
  · intro hout
    unfold set
    rw [if_neg]
    rcases hout with hge | hneg
    · by_cases h0 : 0 ≤ pos
      · rw [toSizeT_of_nonneg w pos h0 (by omega)]
        omega
      · omega
    · have hcast := toSizeT_of_neg w pos hneg (by omega)
      omega

/-- The inputs of `set_spec` exist: overwriting position 0 of a one-element list on a
64-bit platform. -/
theorem set_spec_witness :
    (set 64 ⟨[Sample.ptrArg]⟩ 0 ⟨imm, 4, 7, 0, []⟩).arguments.length = 1 ∧
    (set 64 ⟨[Sample.ptrArg]⟩ 0 ⟨imm, 4, 7, 0, []⟩).arguments[0]? = some ⟨imm, 4, 7, 0, []⟩ :=
  have h := set_spec 64 (Or.inr rfl) ⟨[Sample.ptrArg]⟩ 0 ⟨imm, 4, 7, 0, []⟩
    (by norm_num) (by norm_num) (by norm_num)
  ⟨h.1, (h.2.1 (by norm_num) (by norm_num)).1⟩

/-- C8: each construction path gives as many descriptors as inputs, the `i`-th one
built out of the `i`-th input.  The typed-pack path converts the `i`-th value; the tuple path,
called with `index_sequence_for`, gives the same list as the typed-pack path; the
literal-sequence path keeps the `i`-th descriptor, with `imm_val` set to the address of
its own buffer when that buffer is non-empty, and unchanged when it is empty. -/
theorem construction_paths {β : Type} (toVariant : β → AsmVariant) (vals : List β)
    (bufData : Nat → Nat) (descs : List AsmVariant) :
    ((ofArgs toVariant vals).arguments.length = vals.length ∧
      ∀ i : Nat, (ofArgs toVariant vals).arguments[i]? = (vals[i]?).map toVariant) ∧
    ((ofTuple toVariant vals (index_sequence_for vals)).arguments.length = vals.length ∧
      ofTuple toVariant vals (index_sequence_for vals) = ofArgs toVariant vals) ∧
    ((ofList bufData descs).arguments.length = descs.length ∧
      ∀ (i : Nat) (d : AsmVariant), descs[i]? = some d →
        (d.buf ≠ [] →
          (ofList bufData descs).arguments[i]? = some { d with imm_val := bufData i }) ∧
        (d.buf = [] → (ofList bufData descs).arguments[i]? = some d)) := by
  have htuple : ofTuple toVariant vals (index_sequence_for vals) = ofArgs toVariant vals := by
    unfold ofTuple ofArgs index_sequence_for
    congr 1
    have h := congrArg (List.map toVariant) (List.finRange_map_get vals)
    rw [List.map_map] at h
    exact h
  refine ⟨⟨by simp [ofArgs], fun i => by simp [ofArgs]⟩, ⟨?_, htuple⟩, ⟨?_, ?_⟩⟩
  · rw [htuple]; simp [ofArgs]
  · simp [ofList, fixBuffers_length]
  · intro i d hd
    have hget := fixBuffers_getElem? bufData descs 0 i
    rw [hd] at hget
    simp only [Option.map_some', Nat.zero_add] at hget
    constructor
    · intro hne
      have : d.buf.isEmpty = false := by
        cases hb : d.buf with
        | nil => exact absurd hb hne
        | cons _ _ => rfl
      simp only [ofList, hget, this]
      simp
    · intro he
      have : d.buf.isEmpty = true := by rw [he]; rfl
      simp only [ofList, hget, this]
      simp

/-- The inputs of `construction_paths` exist: a literal sequence of one descriptor
that has a two-byte buffer gets `imm_val` re-pointed to the address of that buffer. -/
theorem construction_paths_witness :
    (ofList (fun i => 512 + i) [⟨imm, 2, 64, 0, [1, 2]⟩]).arguments[0]? =
      some ⟨imm, 2, 512, 0, [1, 2]⟩ :=
  ((construction_paths (fun n : Nat => (⟨imm, 4, n, 0, []⟩ : AsmVariant)) [] (fun i => 512 + i)
    [⟨imm, 2, 64, 0, [1, 2]⟩]).2.2.2 0 ⟨imm, 2, 64, 0, [1, 2]⟩ rfl).1 (by decide)

end CallArguments

/-! ## The four ways out of `Call` -/

namespace RemoteFunctionBase

variable {σ α ρ : Type}

theorem Call_of_env_failed [Inhabited ρ] (P : Process σ α ρ) (R : CppType) (ptr : Nat)
    (conv : eCalligConvention) (m : Machine σ) (args : CallArguments)
    (contextThread : ThreadPtr) (henv : NT_SUCCESS (Call.env P contextThread m).1 = false) :
    Call P R ptr conv m args contextThread =
      ⟨⟨default, (Call.env P contextThread m).1⟩, args, (Call.env P contextThread m).2⟩ := by
  simp [Call, henv]

theorem Call_of_exec_failed [Inhabited ρ] (P : Process σ α ρ) (R : CppType) (ptr : Nat)
    (conv : eCalligConvention) (m : Machine σ) (args : CallArguments)
    (contextThread : ThreadPtr) (henv : NT_SUCCESS (Call.env P contextThread m).1 = true)
    (hexec : NT_SUCCESS (Call.executed P R ptr conv m args contextThread).1 = false) :
    Call P R ptr conv m args contextThread =
      ⟨⟨default, (Call.executed P R ptr conv m args contextThread).1⟩,
        (Call.prepared P R ptr conv m args contextThread).2.1,
        (Call.executed P R ptr conv m args contextThread).2.2⟩ := by
  unfold Call.executed Call.prepared at *
  simp [Call, henv, hexec]

theorem Call_of_fetch_failed [Inhabited ρ] (P : Process σ α ρ) (R : CppType) (ptr : Nat)
    (conv : eCalligConvention) (m : Machine σ) (args : CallArguments)
    (contextThread : ThreadPtr) (henv : NT_SUCCESS (Call.env P contextThread m).1 = true)
    (hexec : NT_SUCCESS (Call.executed P R ptr conv m args contextThread).1 = true)
    (hget : NT_SUCCESS (Call.fetched P R ptr conv m args contextThread).1 = false) :
    Call P R ptr conv m args contextThread =
      ⟨⟨(Call.fetched P R ptr conv m args contextThread).2.1,
          (Call.fetched P R ptr conv m args contextThread).1⟩,
        (Call.prepared P R ptr conv m args contextThread).2.1,
        (Call.fetched P R ptr conv m args contextThread).2.2⟩ := by
  unfold Call.fetched Call.executed Call.prepared at *
  simp [Call, henv, hexec, hget]

theorem Call_of_success [Inhabited ρ] (P : Process σ α ρ) (R : CppType) (ptr : Nat)
    (conv : eCalligConvention) (m : Machine σ) (args : CallArguments)
    (contextThread : ThreadPtr) (henv : NT_SUCCESS (Call.env P contextThread m).1 = true)
    (hexec : NT_SUCCESS (Call.executed P R ptr conv m args contextThread).1 = true)
    (hget : NT_SUCCESS (Call.fetched P R ptr conv m args contextThread).1 = true) :
    Call P R ptr conv m args contextThread =
      ⟨⟨(Call.fetched P R ptr conv m args contextThread).2.1, STATUS_SUCCESS⟩,
        (Call.update P (Call.prepared P R ptr conv m args contextThread).2.1
          (Call.fetched P R ptr conv m args contextThread).2.2).2,
        (Call.update P (Call.prepared P R ptr conv m args contextThread).2.1
          (Call.fetched P R ptr conv m args contextThread).2.2).1⟩ := by
  unfold Call.fetched Call.executed Call.prepared at *
  simp [Call, henv, hexec, hget]

/-! ## What each stage adds to the trace -/

theorem env_trace (P : Process σ α ρ) (contextThread : ThreadPtr) (m : Machine σ) :
    (Call.env P contextThread m).2.trace =
      m.trace ++ [Event.createRPCEnvironment (Call.mode P contextThread m.remote)
        contextThread.isSome] ∧
    (Call.env P contextThread m).2.localMem = m.localMem ∧
    (Call.env P contextThread m).1 =
      (P.CreateRPCEnvironment (Call.mode P contextThread m.remote) contextThread.isSome
        m.remote).1 ∧
    (Call.env P contextThread m).2.remote =
      (P.CreateRPCEnvironment (Call.mode P contextThread m.remote) contextThread.isSome
        m.remote).2 := by
  simp [Call.env]

theorem prepared_trace (P : Process σ α ρ) (R : CppType) (ptr : Nat)
    (conv : eCalligConvention) (m : Machine σ) (args : CallArguments)
    (contextThread : ThreadPtr) :
    (Call.prepared P R ptr conv m args contextThread).2.2.trace =
      m.trace ++ [Event.createRPCEnvironment (Call.mode P contextThread m.remote)
          contextThread.isSome,
        Event.prepareCallAssembly ptr args.arguments conv (deduceRetType (ReturnType R))] ∧
    (Call.prepared P R ptr conv m args contextThread).2.2.localMem = m.localMem := by
  simp [Call.prepared, Call.prepare, Call.env]

theorem exec_trace (P : Process σ α ρ) (a : α) (contextThread : ThreadPtr)
    (m : Machine σ) :
    ∃ v : Event, (Call.exec P a contextThread m).2.2.trace = m.trace ++ [v] ∧
      v.isVehicle = true ∧ v.isPrepare = false ∧ v.isRead = false ∧
      v ≠ Event.getCallResult ∧
      (contextThread = none → v = Event.execInNewThread (P.make a) (P.getCodeSize a)) ∧
      (contextThread ≠ none → contextThread = P.getWorker m.remote →
        v = Event.execInWorkerThread (P.make a) (P.getCodeSize a)) ∧
      (contextThread ≠ none → contextThread ≠ P.getWorker m.remote →
        v = Event.execInAnyThread (P.make a) (P.getCodeSize a) contextThread) ∧
      (Call.exec P a contextThread m).2.2.localMem = m.localMem := by
  unfold Call.exec
  by_cases h1 : contextThread = none
  · exact ⟨Event.execInNewThread (P.make a) (P.getCodeSize a), by simp [h1, Event.isVehicle,
      Event.isPrepare, Event.isRead]⟩
  · by_cases h2 : contextThread = P.getWorker m.remote
    · refine ⟨Event.execInWorkerThread (P.make a) (P.getCodeSize a), ?_⟩
      simp only [if_neg h1, if_pos h2]
      simp [h1, Event.isVehicle, Event.isPrepare, Event.isRead, ← h2]
    · refine ⟨Event.execInAnyThread (P.make a) (P.getCodeSize a) contextThread, ?_⟩
      simp only [if_neg h1, if_neg h2]
      simp [h1, h2, Event.isVehicle, Event.isPrepare, Event.isRead]

theorem getResult_trace (P : Process σ α ρ) (result : ρ) (m : Machine σ) :
    (Call.getResult P result m).2.2.trace = m.trace ++ [Event.getCallResult] ∧
    (Call.getResult P result m).2.2.localMem = m.localMem ∧
    (Call.getResult P result m).2.1 = (P.GetCallResult result m.remote).2.1 ∧
    (Call.getResult P result m).1 = (P.GetCallResult result m.remote).1 := by
  simp [Call.getResult]

theorem updateArg_trace (P : Process σ α ρ) (m : Machine σ) (cur : List AsmVariant)
    (arg : AsmVariant) :
    ∃ reads : List Event, (Call.updateArg P m cur arg).1.trace = m.trace ++ reads ∧
      (∀ e ∈ reads, e.isRead = true ∧ e.isVehicle = false ∧ e.isPrepare = false) ∧
      (Call.updateArg P m cur arg).1.remote = m.remote := by
  unfold Call.updateArg
  by_cases hk : arg.type = AsmVariant.eType.dataPtr
  · refine ⟨[Event.read arg.new_imm_val arg.size arg.imm_val], ?_⟩
    simp [hk, Event.isRead, Event.isVehicle, Event.isPrepare]
  · exact ⟨[], by simp [hk]⟩

theorem updateFrom_trace (P : Process σ α ρ) (n : Nat) :
    ∀ (i : Nat) (st : Machine σ × List AsmVariant),
      ∃ reads : List Event, (Call.updateFrom P n i st).1.trace = st.1.trace ++ reads ∧
        (∀ e ∈ reads, e.isRead = true ∧ e.isVehicle = false ∧ e.isPrepare = false) ∧
        (Call.updateFrom P n i st).1.remote = st.1.remote := by
  induction n with
  | zero => intro i st; exact ⟨[], by simp [Call.updateFrom]⟩
  | succ n ih =>
    intro i st
    rw [Call.updateFrom]
    cases hget : st.2[i]? with
    | none => exact ⟨[], by simp⟩
    | some arg =>
      simp only []
      obtain ⟨r1, h1, hr1, hs1⟩ := updateArg_trace P st.1 st.2 arg
      obtain ⟨r2, h2, hr2, hs2⟩ := ih (i + 1) (Call.updateArg P st.1 st.2 arg)
      refine ⟨r1 ++ r2, ?_, ?_, ?_⟩
      · rw [h2, h1, List.append_assoc]
      · intro e he
        rcases List.mem_append.1 he with h | h
        · exact hr1 e h
        · exact hr2 e h
      · rw [hs2, hs1]

theorem readBacks_isRead (args : List AsmVariant) :
    ∀ e ∈ readBacks args, e.isRead = true ∧ e.isVehicle = false ∧ e.isPrepare = false := by
  intro e he
  simp only [readBacks, List.mem_map] at he
  obtain ⟨a, _, rfl⟩ := he
  simp [Event.isRead, Event.isVehicle, Event.isPrepare]

/-- The trace of a call whose setup succeeded starts with the setup, the code
generation and one more event; what follows holds no run of the stub and no code
generation. -/
theorem Call_trace_of_env_ok [Inhabited ρ] (P : Process σ α ρ) (R : CppType) (ptr : Nat)
    (conv : eCalligConvention) (m : Machine σ) (args : CallArguments)
    (contextThread : ThreadPtr) (henv : NT_SUCCESS (Call.env P contextThread m).1 = true) :
    ∃ rest : List Event,
      (Call P R ptr conv m args contextThread).machine.trace =
        (Call.executed P R ptr conv m args contextThread).2.2.trace ++ rest ∧
      (∀ e ∈ rest, e.isVehicle = false ∧ e.isPrepare = false) := by
  by_cases hexec : NT_SUCCESS (Call.executed P R ptr conv m args contextThread).1 = true
  · by_cases hget : NT_SUCCESS (Call.fetched P R ptr conv m args contextThread).1 = true
    · obtain ⟨reads, hr, hreads, -⟩ := updateFrom_trace P
        (Call.prepared P R ptr conv m args contextThread).2.1.arguments.length 0
        ((Call.fetched P R ptr conv m args contextThread).2.2,
          (Call.prepared P R ptr conv m args contextThread).2.1.arguments)
      refine ⟨Event.getCallResult :: reads, ?_, ?_⟩
      · rw [Call_of_success P R ptr conv m args contextThread henv hexec hget]
        simp only [Call.update]
        rw [hr]
        unfold Call.fetched
        rw [(getResult_trace P _ _).1]
        simp
      · intro e he
        rcases List.mem_cons.1 he with rfl | he
        · simp [Event.isVehicle, Event.isPrepare]
        · exact (hreads e he).2
    · rw [Bool.not_eq_true] at hget
      refine ⟨[Event.getCallResult], ?_, ?_⟩
      · rw [Call_of_fetch_failed P R ptr conv m args contextThread henv hexec hget]
        simp only []
        unfold Call.fetched
        rw [(getResult_trace P _ _).1]
      · intro e he
        rw [List.mem_singleton] at he
        subst he
        simp [Event.isVehicle, Event.isPrepare]
  · rw [Bool.not_eq_true] at hexec
    refine ⟨[], ?_, by simp⟩
    rw [Call_of_exec_failed P R ptr conv m args contextThread henv hexec]
    simp

end RemoteFunctionBase

/-! ## Return shape -/

/-- C1: for a return type `R` that is not a reference, the shape deduced for
`ReturnType` is `rt_float` for `float`, `rt_double` for `double` and `long double`,
and for any other type `rt_int64` when its size is 8, `rt_struct` when its size is
above 8 and `rt_int32` otherwise; `void` is replaced by the four-byte `int` and gets
`rt_int32`.  A reference type never gets `rt_struct`.  Whenever environment setup
succeeds, this shape is the one `Call` hands to `PrepareCallAssembly`. -/
theorem return_shape (R : CppType) :
    (R.isReference = false →
      (R.kind = TypeKind.float_ → deduceRetType (ReturnType R) = rt_float) ∧
      (R.kind = TypeKind.double_ ∨ R.kind = TypeKind.longDouble →
        deduceRetType (ReturnType R) = rt_double) ∧
      (R.kind = TypeKind.other → R.size = 8 → deduceRetType (ReturnType R) = rt_int64) ∧
      (R.kind = TypeKind.other → 8 < R.size →
        deduceRetType (ReturnType R) = rt_struct) ∧
      (R.kind = TypeKind.other → R.size < 8 →
        deduceRetType (ReturnType R) = rt_int32) ∧
      (R.kind = TypeKind.void_ →
        ReturnType R = CppType.int ∧ CppType.int.size = 4 ∧
        deduceRetType (ReturnType R) = rt_int32)) ∧
    (R.isReference = true → deduceRetType (ReturnType R) ≠ rt_struct) ∧
    (∀ {σ α ρ : Type} [Inhabited ρ] (P : Process σ α ρ) (ptr : Nat)
        (conv : eCalligConvention) (m : Machine σ) (args : CallArguments)
        (contextThread : ThreadPtr),
      NT_SUCCESS (RemoteFunctionBase.Call.env P contextThread m).1 = true →
      Event.prepareCallAssembly ptr args.arguments conv (deduceRetType (ReturnType R)) ∈
        (RemoteFunctionBase.Call P R ptr conv m args contextThread).machine.trace) := by
  obtain ⟨kind, size, isRef⟩ := R
  refine ⟨?_, ?_, ?_⟩
  · intro href
    simp only at href
    subst href
    refine ⟨?_, ?_, ?_, ?_, ?_, ?_⟩
    · rintro h; simp only at h; subst h
      simp [ReturnType, deduceRetType, CppType.isSame]
    · rintro (h | h) <;> simp only at h <;> subst h <;>
        simp [ReturnType, deduceRetType, CppType.isSame]
    · rintro h hs; simp only at h hs; subst h; subst hs
      simp [ReturnType, deduceRetType, CppType.isSame]
    · rintro h hs; simp only at h hs; subst h
      have : size ≠ 8 := by omega
      simp [ReturnType, deduceRetType, CppType.isSame, this, hs]
    · rintro h hs; simp only at h hs; subst h
      have h1 : size ≠ 8 := by omega
      have h2 : ¬ 8 < size := by omega
      simp [ReturnType, deduceRetType, CppType.isSame, h1, h2]
    · rintro h; simp only at h; subst h
      simp [ReturnType, deduceRetType, CppType.isSame, CppType.int]
  · intro href
    simp only at href
    subst href
    cases kind <;> simp [ReturnType, deduceRetType, CppType.isSame] <;> split <;> simp
  · intro σ α ρ _ P ptr conv m args contextThread henv
    have hprep := (RemoteFunctionBase.prepared_trace P ⟨kind, size, isRef⟩ ptr conv m args
      contextThread).1
    obtain ⟨v, hv, -⟩ := RemoteFunctionBase.exec_trace P
      (RemoteFunctionBase.Call.prepared P ⟨kind, size, isRef⟩ ptr conv m args contextThread).1
      contextThread
      (RemoteFunctionBase.Call.prepared P ⟨kind, size, isRef⟩ ptr conv m args contextThread).2.2
    have hex : (RemoteFunctionBase.Call.executed P ⟨kind, size, isRef⟩ ptr conv m args
        contextThread).2.2.trace = _ := hv
    rw [hprep] at hex
    obtain ⟨rest, hrest, -⟩ := RemoteFunctionBase.Call_trace_of_env_ok P ⟨kind, size, isRef⟩
      ptr conv m args contextThread henv
    rw [hrest, hex]
    simp

/-- The inputs of `return_shape` exist: a sixteen-byte class type returned by value is
classed `rt_struct`. -/
theorem return_shape_witness :
    deduceRetType (ReturnType ⟨TypeKind.other, 16, false⟩) = rt_struct :=
  ((return_shape ⟨TypeKind.other, 16, false⟩).1 rfl).2.2.2.1 rfl (by decide)

namespace RemoteFunctionBase

variable {σ α ρ : Type}

/-- C3: when `CreateRPCEnvironment` returns a failing status `s`, `Call` returns
the default value with `s`, and the only operation of the call is that
`CreateRPCEnvironment`: no code generation, no execution vehicle, no `GetCallResult`
and no read-back follow; the target is left as `CreateRPCEnvironment` left it, and the
calling process's memory and the argument list are as before the call. -/
theorem env_failure_terminal [Inhabited ρ] (P : Process σ α ρ) (R : CppType) (ptr : Nat)
    (conv : eCalligConvention) (m : Machine σ) (args : CallArguments)
    (contextThread : ThreadPtr) (s : NTSTATUS)
    (hs : (P.CreateRPCEnvironment (Call.mode P contextThread m.remote) contextThread.isSome
      m.remote).1 = s)
    (hfail : NT_SUCCESS s = false) :
    (Call P R ptr conv m args contextThread).ret = ⟨default, s⟩ ∧
    (Call P R ptr conv m args contextThread).machine.trace =
      m.trace ++ [Event.createRPCEnvironment (Call.mode P contextThread m.remote)
        contextThread.isSome] ∧
    (Call P R ptr conv m args contextThread).machine.remote =
      (P.CreateRPCEnvironment (Call.mode P contextThread m.remote) contextThread.isSome
        m.remote).2 ∧
    (Call P R ptr conv m args contextThread).machine.localMem = m.localMem ∧
    (Call P R ptr conv m args contextThread).args = args := by
  obtain ⟨ht, hl, hst, hr⟩ := env_trace P contextThread m
  have henv : NT_SUCCESS (Call.env P contextThread m).1 = false := by rw [hst, hs]; exact hfail
  rw [Call_of_env_failed P R ptr conv m args contextThread henv]
  simp only [ht, hl, hst, hr, hs, and_self]

/-- The inputs of `env_failure_terminal` exist: on the concrete target whose
`CreateRPCEnvironment` fails, the call returns `0` with that status after this one
operation. -/
theorem env_failure_terminal_witness :
    (Call Sample.failingEnv Sample.R 7 cc_cdecl Sample.machine ⟨[Sample.ptrArg]⟩).ret =
      ⟨0, -1073741823⟩ ∧
    (Call Sample.failingEnv Sample.R 7 cc_cdecl Sample.machine
      ⟨[Sample.ptrArg]⟩).machine.trace =
        [Event.createRPCEnvironment Worker_CreateNew false] :=
  have h := env_failure_terminal Sample.failingEnv Sample.R 7 cc_cdecl Sample.machine
    ⟨[Sample.ptrArg]⟩ none (-1073741823) rfl (by decide)
  ⟨h.1, h.2.1⟩

/-- C4: when environment setup succeeds, the operations of the call are the
`CreateRPCEnvironment`, one `PrepareCallAssembly`, one run `v` of the stub, and after
them neither a further run nor a further code generation.  The run is
`ExecInNewThread` when `contextThread` is null, `ExecInWorkerThread` when it is
non-null and equal to the worker thread, `ExecInAnyThread` on `contextThread`
otherwise, each given the stub and code size of the assembler that
`PrepareCallAssembly` left, and run in the target as `PrepareCallAssembly` left it.
The call continues with what that run returns: its failing status is the returned
status and its target is the final target, or `GetCallResult` is applied to its target.
Every call form of the wrapper that is given no `contextThread` is the call with a null
`contextThread`. -/
theorem one_vehicle [Inhabited ρ] (P : Process σ α ρ) (R : CppType) (ptr : Nat)
    (conv : eCalligConvention) (m : Machine σ) (args : CallArguments)
    (contextThread : ThreadPtr) (env : NTSTATUS × σ) (pca : α × List AsmVariant × σ)
    (run : NTSTATUS × Nat × σ) (v : Event)
    (henv : env = P.CreateRPCEnvironment
      (if contextThread = P.getWorker m.remote then Worker_CreateNew else Worker_None)
      contextThread.isSome m.remote)
    (hok : NT_SUCCESS env.1 = true)
    (hpca : pca = P.PrepareCallAssembly (P.GetAssembler (P.isWow64 m.remote)) ptr
      args.arguments conv (deduceRetType (ReturnType R)) m.localMem env.2)
    (hrun :
      (contextThread = none ∧
        run = P.ExecInNewThread (P.make pca.1) (P.getCodeSize pca.1) pca.2.2 ∧
        v = Event.execInNewThread (P.make pca.1) (P.getCodeSize pca.1)) ∨
      (contextThread ≠ none ∧ contextThread = P.getWorker pca.2.2 ∧
        run = P.ExecInWorkerThread (P.make pca.1) (P.getCodeSize pca.1) pca.2.2 ∧
        v = Event.execInWorkerThread (P.make pca.1) (P.getCodeSize pca.1)) ∨
      (contextThread ≠ none ∧ contextThread ≠ P.getWorker pca.2.2 ∧
        run = P.ExecInAnyThread (P.make pca.1) (P.getCodeSize pca.1) contextThread pca.2.2 ∧
        v = Event.execInAnyThread (P.make pca.1) (P.getCodeSize pca.1) contextThread)) :
    (∃ rest : List Event,
      (Call P R ptr conv m args contextThread).machine.trace =
        m.trace ++ [Event.createRPCEnvironment
            (if contextThread = P.getWorker m.remote then Worker_CreateNew else Worker_None)
            contextThread.isSome,
          Event.prepareCallAssembly ptr args.arguments conv (deduceRetType (ReturnType R)),
          v] ++ rest ∧
      (∀ e ∈ rest, e.isVehicle = false ∧ e.isPrepare = false)) ∧
    (NT_SUCCESS run.1 = false →
      (Call P R ptr conv m args contextThread).ret = ⟨default, run.1⟩ ∧
      (Call P R ptr conv m args contextThread).machine.remote = run.2.2) ∧
    (NT_SUCCESS run.1 = true →
      (Call P R ptr conv m args contextThread).ret.result =
        (P.GetCallResult default run.2.2).2.1 ∧
      (Call P R ptr conv m args contextThread).machine.remote =
        (P.GetCallResult default run.2.2).2.2) ∧
    (∀ {β : Type} (toVariant : β → AsmVariant) (vals : List β) (bufData : Nat → Nat)
        (descs : List AsmVariant),
      RemoteFunction.Call_args P R ptr conv toVariant m vals =
        Call P R ptr conv m (CallArguments.ofArgs toVariant vals) none ∧
      RemoteFunction.call_operator P R ptr conv toVariant m vals =
        Call P R ptr conv m (CallArguments.ofArgs toVariant vals) none ∧
      RemoteFunction.Call_tuple P R ptr conv toVariant m vals =
        Call P R ptr conv m
          (CallArguments.ofTuple toVariant vals (CallArguments.index_sequence_for vals))
          none ∧
      RemoteFunction.Call_list P R ptr conv bufData m descs =
        Call P R ptr conv m (CallArguments.ofList bufData descs) none ∧
      RemoteFunction.Call P R ptr conv m args = Call P R ptr conv m args none) := by
  have h1 : Call.env P contextThread m =
      (env.1, ⟨env.2, m.localMem, m.trace ++ [Event.createRPCEnvironment
          (if contextThread = P.getWorker m.remote then Worker_CreateNew else Worker_None)
          contextThread.isSome]⟩) := by
    rw [henv]; rfl
  have h2 : Call.prepared P R ptr conv m args contextThread =
      (pca.1, ⟨pca.2.1⟩, ⟨pca.2.2, m.localMem, m.trace ++ [Event.createRPCEnvironment
          (if contextThread = P.getWorker m.remote then Worker_CreateNew else Worker_None)
          contextThread.isSome,
        Event.prepareCallAssembly ptr args.arguments conv (deduceRetType (ReturnType R))]⟩) := by
    unfold Call.prepared
    rw [h1, hpca]
    simp [Call.prepare]
  have h3 : Call.executed P R ptr conv m args contextThread =
      (run.1, run.2.1, ⟨run.2.2, m.localMem, m.trace ++ [Event.createRPCEnvironment
          (if contextThread = P.getWorker m.remote then Worker_CreateNew else Worker_None)
          contextThread.isSome,
        Event.prepareCallAssembly ptr args.arguments conv (deduceRetType (ReturnType R)),
        v]⟩) := by
    unfold Call.executed
    rw [h2]
    unfold Call.exec
    rcases hrun with ⟨hc, hr, hv⟩ | ⟨hc, hw, hr, hv⟩ | ⟨hc, hw, hr, hv⟩
    · simp only [if_pos hc, hr, hv]
      simp
    · simp only [if_neg hc, if_pos hw, hr, hv]
      simp
    · simp only [if_neg hc, if_neg hw, hr, hv]
      simp
  have h4 : Call.fetched P R ptr conv m args contextThread =
      ((P.GetCallResult default run.2.2).1, (P.GetCallResult default run.2.2).2.1,
        ⟨(P.GetCallResult default run.2.2).2.2, m.localMem,
        m.trace ++ [Event.createRPCEnvironment
          (if contextThread = P.getWorker m.remote then Worker_CreateNew else Worker_None)
          contextThread.isSome,
        Event.prepareCallAssembly ptr args.arguments conv (deduceRetType (ReturnType R)),
        v, Event.getCallResult]⟩) := by
    unfold Call.fetched
    rw [h3]
    simp [Call.getResult]
  have henv1 : NT_SUCCESS (Call.env P contextThread m).1 = true := by rw [h1]; exact hok
  refine ⟨?_, ?_, ?_, fun _ _ _ _ => ⟨rfl, rfl, rfl, rfl, rfl⟩⟩
  · obtain ⟨rest, hrest, hno⟩ := Call_trace_of_env_ok P R ptr conv m args contextThread henv1
    exact ⟨rest, by rw [hrest, h3], hno⟩
  · intro hfail
    have hexec : NT_SUCCESS (Call.executed P R ptr conv m args contextThread).1 = false := by
      rw [h3]; exact hfail
    rw [Call_of_exec_failed P R ptr conv m args contextThread henv1 hexec, h3]
    exact ⟨rfl, rfl⟩
  · intro hsucc
    have hexec : NT_SUCCESS (Call.executed P R ptr conv m args contextThread).1 = true := by
      rw [h3]; exact hsucc
    by_cases hget : NT_SUCCESS (Call.fetched P R ptr conv m args contextThread).1 = true
    · rw [Call_of_success P R ptr conv m args contextThread henv1 hexec hget]
      simp only [Call.update]
      rw [(updateFrom_trace P _ 0 _).choose_spec.2.2, h4]
      exact ⟨rfl, rfl⟩
    · rw [Bool.not_eq_true] at hget
      rw [Call_of_fetch_failed P R ptr conv m args contextThread henv1 hexec hget, h4]
      exact ⟨rfl, rfl⟩

/-- The inputs of `one_vehicle` exist, for each of the three vehicles.  On the concrete
target the thread that ran the stub leaves its kind at remote address `0` and the
address and size of the stub at `1` and `2`: a call with a null `contextThread` ran
the stub `8192` of `64` bytes on a new thread, a call on the worker thread `1` ran it
on the worker, and a call on another thread `2` ran it on that thread.  Evaluating
the three calls gives the same kinds of thread and, for the call on the worker thread,
the same stub and its four operations. -/
theorem one_vehicle_witness :
    ((Call Sample.process Sample.R 7 cc_cdecl Sample.machine ⟨[]⟩).machine.remote 0 = 1 ∧
      (Call Sample.process Sample.R 7 cc_cdecl Sample.machine ⟨[]⟩).machine.remote 1 = 8192 ∧
      (Call Sample.process Sample.R 7 cc_cdecl Sample.machine ⟨[]⟩).machine.remote 2 = 64) ∧
    (Call Sample.withWorker Sample.R 7 cc_cdecl Sample.machine ⟨[]⟩
      (some 1)).machine.remote 0 = 2 ∧
    (Call Sample.withWorker Sample.R 7 cc_cdecl Sample.machine ⟨[]⟩
      (some 2)).machine.remote 0 = 3 ∧
    (∃ rest : List Event,
      (Call Sample.withWorker Sample.R 7 cc_cdecl Sample.machine ⟨[]⟩
        (some 2)).machine.trace =
        [Event.createRPCEnvironment Worker_None true,
          Event.prepareCallAssembly 7 [] cc_cdecl rt_int32,
          Event.execInAnyThread 8192 64 (some 2)] ++ rest) ∧
    ((Call Sample.process Sample.R 7 cc_cdecl Sample.machine ⟨[]⟩).machine.remote 0 = 1 ∧
      (Call Sample.withWorker Sample.R 7 cc_cdecl Sample.machine ⟨[]⟩
        (some 2)).machine.remote 0 = 3 ∧
      (Call Sample.withWorker Sample.R 7 cc_cdecl Sample.machine ⟨[]⟩
        (some 1)).machine.remote 0 = 2 ∧
      (Call Sample.withWorker Sample.R 7 cc_cdecl Sample.machine ⟨[]⟩
        (some 1)).machine.remote 1 = 8192 ∧
      (Call Sample.withWorker Sample.R 7 cc_cdecl Sample.machine ⟨[]⟩
        (some 1)).machine.remote 2 = 64 ∧
      (Call Sample.withWorker Sample.R 7 cc_cdecl Sample.machine ⟨[]⟩
        (some 1)).machine.trace =
        [Event.createRPCEnvironment Worker_CreateNew true,
          Event.prepareCallAssembly 7 [] cc_cdecl rt_int32,
          Event.execInWorkerThread 8192 64,
          Event.getCallResult]) :=
  have hnew := one_vehicle Sample.process Sample.R 7 cc_cdecl Sample.machine ⟨[]⟩ none
    _ _ _ _ rfl (by decide) rfl (Or.inl ⟨rfl, rfl, rfl⟩)
  have hworker := one_vehicle Sample.withWorker Sample.R 7 cc_cdecl Sample.machine ⟨[]⟩
    (some 1) _ _ _ _ rfl (by decide) rfl (Or.inr (Or.inl ⟨by decide, rfl, rfl, rfl⟩))
  have hany := one_vehicle Sample.withWorker Sample.R 7 cc_cdecl Sample.machine ⟨[]⟩
    (some 2) _ _ _ _ rfl (by decide) rfl
    (Or.inr (Or.inr ⟨by decide, by decide, rfl, rfl⟩))
  ⟨⟨congrFun (hnew.2.2.1 (by decide)).2 0, congrFun (hnew.2.2.1 (by decide)).2 1,
      congrFun (hnew.2.2.1 (by decide)).2 2⟩,
    congrFun (hworker.2.2.1 (by decide)).2 0,
    congrFun (hany.2.2.1 (by decide)).2 0,
    hany.1.imp (fun _ h => h.1),
    by decide⟩

/-- C5: when environment setup succeeds and the chosen execution vehicle returns a
failing status `s`, `Call` returns the default value with `s`; the machine is the one
the vehicle left, so the last operation of the call is the run of the stub: no
`GetCallResult` and no read-back follow, and the calling process's memory is as
before the call. -/
theorem exec_failure_skips_decode [Inhabited ρ] (P : Process σ α ρ) (R : CppType)
    (ptr : Nat) (conv : eCalligConvention) (m : Machine σ) (args : CallArguments)
    (contextThread : ThreadPtr) (s : NTSTATUS)
    (henv : NT_SUCCESS (Call.env P contextThread m).1 = true)
    (hs : (Call.executed P R ptr conv m args contextThread).1 = s)
    (hfail : NT_SUCCESS s = false) :
    (Call P R ptr conv m args contextThread).ret = ⟨default, s⟩ ∧
    (∃ v : Event, v.isVehicle = true ∧
      (Call P R ptr conv m args contextThread).machine.trace =
        m.trace ++ [Event.createRPCEnvironment (Call.mode P contextThread m.remote)
            contextThread.isSome,
          Event.prepareCallAssembly ptr args.arguments conv (deduceRetType (ReturnType R)),
          v]) ∧
    (∀ e ∈ (Call P R ptr conv m args contextThread).machine.trace.drop m.trace.length,
      e ≠ Event.getCallResult ∧ e.isRead = false) ∧
    (Call P R ptr conv m args contextThread).machine.localMem = m.localMem := by
  have hprep := prepared_trace P R ptr conv m args contextThread
  obtain ⟨v, hv, hveh, hpre, hrd, hne, -, -, -, hmem⟩ := exec_trace P
    (Call.prepared P R ptr conv m args contextThread).1 contextThread
    (Call.prepared P R ptr conv m args contextThread).2.2
  have hex : (Call.executed P R ptr conv m args contextThread).2.2.trace = _ := hv
  have hexm : (Call.executed P R ptr conv m args contextThread).2.2.localMem = _ := hmem
  rw [hprep.1] at hex
  rw [hprep.2] at hexm
  have hexec : NT_SUCCESS (Call.executed P R ptr conv m args contextThread).1 = false := by
    rw [hs]; exact hfail
  rw [Call_of_exec_failed P R ptr conv m args contextThread henv hexec]
  simp only [hs, hex, hexm, true_and]
  refine ⟨⟨v, hveh, by simp⟩, ?_, trivial⟩
  intro e he
  rw [List.append_assoc, List.drop_left] at he
  simp only [List.cons_append, List.nil_append, List.mem_cons, List.not_mem_nil, or_false] at he
  rcases he with rfl | rfl | rfl
  · simp [Event.isRead]
  · simp [Event.isRead]
  · exact ⟨hne, hrd⟩

/-- The inputs of `exec_failure_skips_decode` exist: on the concrete target whose
`ExecInNewThread` fails, the call returns `0` with that status and the local buffer
keeps its byte. -/
theorem exec_failure_skips_decode_witness :
    (Call Sample.failingExec Sample.R 7 cc_cdecl Sample.machine ⟨[Sample.ptrArg]⟩).ret =
      ⟨0, -1073741823⟩ ∧
    (Call Sample.failingExec Sample.R 7 cc_cdecl Sample.machine
      ⟨[Sample.ptrArg]⟩).machine.localMem 100 = 1 :=
  have h := exec_failure_skips_decode Sample.failingExec Sample.R 7 cc_cdecl Sample.machine
    ⟨[Sample.ptrArg]⟩ none (-1073741823) (by decide) (by decide) (by decide)
  ⟨h.1, congrFun h.2.2.2 100⟩

/-! ## The read-back loop -/

theorem getElem?_of_lt_drop (L : List AsmVariant) (i : Nat) (hi : i < L.length) :
    ∃ arg : AsmVariant, L[i]? = some arg ∧ arg ∈ L ∧ L.drop i = arg :: L.drop (i + 1) := by
  refine ⟨L[i], List.getElem?_eq_getElem hi, List.getElem_mem hi, ?_⟩
  exact List.drop_eq_getElem_cons hi

/-- C6, as amended: when setup, execution and `GetCallResult` all succeed and no
read-back of the call changes an element of the argument vector, the call performs,
after `GetCallResult`, one read for each `dataPtr` descriptor of the argument list (as
`PrepareCallAssembly` left it, which is also the list after the call), in list order,
of `size` bytes, into `imm_val`, out of `new_imm_val`, and no read for any other
descriptor.  If moreover every one of these reads does copy the target's bytes, and no
`dataPtr` descriptor later in the list has a local buffer overlapping that of `d`, then
after the call the local buffer of `d` holds the bytes of its remote buffer; and it
holds its original bytes if `PrepareCallAssembly` had copied them into the remote
buffer and the target did not write to that buffer, neither while the stub ran nor
while the result was fetched. -/
theorem read_back [Inhabited ρ] (P : Process σ α ρ) (R : CppType) (ptr : Nat)
    (conv : eCalligConvention) (m : Machine σ) (args : CallArguments)
    (contextThread : ThreadPtr) (env : NTSTATUS × σ) (pca : α × List AsmVariant × σ)
    (run : NTSTATUS × Nat × σ) (v : Event) (get : NTSTATUS × ρ × σ)
    (henv : env = P.CreateRPCEnvironment
      (if contextThread = P.getWorker m.remote then Worker_CreateNew else Worker_None)
      contextThread.isSome m.remote)
    (hpca : pca = P.PrepareCallAssembly (P.GetAssembler (P.isWow64 m.remote)) ptr
      args.arguments conv (deduceRetType (ReturnType R)) m.localMem env.2)
    (hrun :
      (contextThread = none ∧
        run = P.ExecInNewThread (P.make pca.1) (P.getCodeSize pca.1) pca.2.2 ∧
        v = Event.execInNewThread (P.make pca.1) (P.getCodeSize pca.1)) ∨
      (contextThread ≠ none ∧ contextThread = P.getWorker pca.2.2 ∧
        run = P.ExecInWorkerThread (P.make pca.1) (P.getCodeSize pca.1) pca.2.2 ∧
        v = Event.execInWorkerThread (P.make pca.1) (P.getCodeSize pca.1)) ∨
      (contextThread ≠ none ∧ contextThread ≠ P.getWorker pca.2.2 ∧
        run = P.ExecInAnyThread (P.make pca.1) (P.getCodeSize pca.1) contextThread pca.2.2 ∧
        v = Event.execInAnyThread (P.make pca.1) (P.getCodeSize pca.1) contextThread))
    (hget : get = P.GetCallResult default run.2.2)
    (hok1 : NT_SUCCESS env.1 = true) (hok2 : NT_SUCCESS run.1 = true)
    (hok3 : NT_SUCCESS get.1 = true)
    (hvec : ∀ e ∈ pca.2.1, e.type = dataPtr → ∀ mem : LocalMem,
      (P.Read e.new_imm_val e.size e.imm_val get.2.2 mem pca.2.1).2.2 = pca.2.1) :
    (Call P R ptr conv m args contextThread).args = ⟨pca.2.1⟩ ∧
    (Call P R ptr conv m args contextThread).machine.trace =
      m.trace ++ [Event.createRPCEnvironment
          (if contextThread = P.getWorker m.remote then Worker_CreateNew else Worker_None)
          contextThread.isSome,
        Event.prepareCallAssembly ptr args.arguments conv (deduceRetType (ReturnType R)),
        v, Event.getCallResult] ++ readBacks pca.2.1 ∧
    (∀ (bytes : σ → Nat → Nat) (pre post : List AsmVariant) (d : AsmVariant),
      pca.2.1 = pre ++ d :: post → d.type = dataPtr →
      (∀ e ∈ pca.2.1, e.type = dataPtr → ∀ mem : LocalMem,
        (P.Read e.new_imm_val e.size e.imm_val get.2.2 mem pca.2.1).2.1 =
          copyBytes (bytes get.2.2) e.new_imm_val e.size e.imm_val mem) →
      (∀ e ∈ post, e.type = dataPtr →
        e.imm_val + e.size ≤ d.imm_val ∨ d.imm_val + d.size ≤ e.imm_val) →
      (∀ k : Nat, k < d.size →
        (Call P R ptr conv m args contextThread).machine.localMem (d.imm_val + k) =
          bytes get.2.2 (d.new_imm_val + k)) ∧
      ((∀ k : Nat, k < d.size →
          bytes pca.2.2 (d.new_imm_val + k) = m.localMem (d.imm_val + k)) →
        (∀ k : Nat, k < d.size →
          bytes run.2.2 (d.new_imm_val + k) = bytes pca.2.2 (d.new_imm_val + k) ∧
          bytes get.2.2 (d.new_imm_val + k) = bytes run.2.2 (d.new_imm_val + k)) →
        ∀ k : Nat, k < d.size →
          (Call P R ptr conv m args contextThread).machine.localMem (d.imm_val + k) =
            m.localMem (d.imm_val + k))) := by
  have h1 : Call.env P contextThread m =
      (env.1, ⟨env.2, m.localMem, m.trace ++ [Event.createRPCEnvironment
          (if contextThread = P.getWorker m.remote then Worker_CreateNew else Worker_None)
          contextThread.isSome]⟩) := by
    rw [henv]; rfl
  have h2 : Call.prepared P R ptr conv m args contextThread =
      (pca.1, ⟨pca.2.1⟩, ⟨pca.2.2, m.localMem, m.trace ++ [Event.createRPCEnvironment
          (if contextThread = P.getWorker m.remote then Worker_CreateNew else Worker_None)
          contextThread.isSome,
        Event.prepareCallAssembly ptr args.arguments conv (deduceRetType (ReturnType R))]⟩) := by
    unfold Call.prepared
    rw [h1, hpca]
    simp [Call.prepare]
  have h3 : Call.executed P R ptr conv m args contextThread =
      (run.1, run.2.1, ⟨run.2.2, m.localMem, m.trace ++ [Event.createRPCEnvironment
          (if contextThread = P.getWorker m.remote then Worker_CreateNew else Worker_None)
          contextThread.isSome,
        Event.prepareCallAssembly ptr args.arguments conv (deduceRetType (ReturnType R)),
        v]⟩) := by
    unfold Call.executed
    rw [h2]
    unfold Call.exec
    rcases hrun with ⟨hc, hr, hv⟩ | ⟨hc, hw, hr, hv⟩ | ⟨hc, hw, hr, hv⟩
    · simp only [if_pos hc, hr, hv]
      simp
    · simp only [if_neg hc, if_pos hw, hr, hv]
      simp
    · simp only [if_neg hc, if_neg hw, hr, hv]
      simp
  have h4 : Call.fetched P R ptr conv m args contextThread =
      ((get).1, (get).2.1, ⟨(get).2.2, m.localMem, m.trace ++ [Event.createRPCEnvironment
          (if contextThread = P.getWorker m.remote then Worker_CreateNew else Worker_None)
          contextThread.isSome,
        Event.prepareCallAssembly ptr args.arguments conv (deduceRetType (ReturnType R)),
        v, Event.getCallResult]⟩) := by
    unfold Call.fetched
    rw [h3, hget]
    simp [Call.getResult]
  have stable : ∀ (L : List AsmVariant) (s : σ),
      (∀ e ∈ L, e.type = dataPtr → ∀ mem : LocalMem,
        (P.Read e.new_imm_val e.size e.imm_val s mem L).2.2 = L) →
      ∀ (n i : Nat) (m : Machine σ), m.remote = s → i + n = L.length →
        (Call.updateFrom P n i (m, L)).2 = L ∧
        (Call.updateFrom P n i (m, L)).1.trace = m.trace ++ readBacks (L.drop i) := by
    intro L s hvec n
    induction n with
    | zero =>
      intro i m _ hi
      have : L.drop i = [] := List.drop_eq_nil_of_le (by omega)
      simp [Call.updateFrom, this, readBacks]
    | succ n ih =>
      intro i m hm hi
      obtain ⟨arg, hget, hmem, hdrop⟩ := getElem?_of_lt_drop L i (by omega)
      rw [Call.updateFrom]
      simp only [hget, hdrop]
      by_cases hk : arg.type = dataPtr
      · have hv : (P.Read arg.new_imm_val arg.size arg.imm_val m.remote m.localMem L).2.2 = L := by
          rw [hm]; exact hvec arg hmem hk m.localMem
        simp only [Call.updateArg, if_pos hk, hv]
        obtain ⟨h1, h2⟩ := ih (i + 1)
          { m with
            localMem := (P.Read arg.new_imm_val arg.size arg.imm_val m.remote m.localMem L).2.1,
            trace := m.trace ++ [Event.read arg.new_imm_val arg.size arg.imm_val] }
          hm (by omega)
        refine ⟨h1, ?_⟩
        rw [h2]
        simp [readBacks, hk]
      · simp only [Call.updateArg, if_neg hk]
        obtain ⟨h1, h2⟩ := ih (i + 1) m hm (by omega)
        refine ⟨h1, ?_⟩
        rw [h2]
        simp [readBacks, hk]
  have untouched : ∀ (rem : Nat → Nat) (L : List AsmVariant) (s : σ) (x : Nat),
      (∀ e ∈ L, e.type = dataPtr → ∀ mem : LocalMem,
        (P.Read e.new_imm_val e.size e.imm_val s mem L).2.2 = L) →
      (∀ e ∈ L, e.type = dataPtr → ∀ mem : LocalMem,
        (P.Read e.new_imm_val e.size e.imm_val s mem L).2.1 =
          copyBytes rem e.new_imm_val e.size e.imm_val mem) →
      ∀ (n i : Nat) (m : Machine σ), m.remote = s → i + n = L.length →
        (∀ e ∈ L.drop i, e.type = dataPtr → ¬ (e.imm_val ≤ x ∧ x < e.imm_val + e.size)) →
        (Call.updateFrom P n i (m, L)).1.localMem x = m.localMem x := by
    intro rem L s x hvec hread n
    induction n with
    | zero => intro i m _ _ _; rfl
    | succ n ih =>
      intro i m hm hi hx
      obtain ⟨arg, hget, hmem, hdrop⟩ := getElem?_of_lt_drop L i (by omega)
      rw [Call.updateFrom]
      simp only [hget]
      rw [hdrop] at hx
      by_cases hk : arg.type = dataPtr
      · have hv : (P.Read arg.new_imm_val arg.size arg.imm_val m.remote m.localMem L).2.2 = L := by
          rw [hm]; exact hvec arg hmem hk m.localMem
        have hr : (P.Read arg.new_imm_val arg.size arg.imm_val m.remote m.localMem L).2.1 =
            copyBytes rem arg.new_imm_val arg.size arg.imm_val m.localMem := by
          rw [hm]; exact hread arg hmem hk m.localMem
        simp only [Call.updateArg, if_pos hk, hv]
        rw [ih (i + 1)
          { m with
            localMem := (P.Read arg.new_imm_val arg.size arg.imm_val m.remote m.localMem L).2.1,
            trace := m.trace ++ [Event.read arg.new_imm_val arg.size arg.imm_val] }
          hm (by omega) (fun e he => hx e (List.mem_cons_of_mem _ he))]
        simp only [hr, copyBytes, if_neg (hx arg (List.mem_cons_self _ _) hk)]
      · simp only [Call.updateArg, if_neg hk]
        exact ih (i + 1) m hm (by omega) (fun e he => hx e (List.mem_cons_of_mem _ he))
  have last_write : ∀ (rem : Nat → Nat) (pre post : List AsmVariant) (d : AsmVariant)
      (s : σ), d.type = dataPtr →
      (∀ e ∈ pre ++ d :: post, e.type = dataPtr → ∀ mem : LocalMem,
        (P.Read e.new_imm_val e.size e.imm_val s mem (pre ++ d :: post)).2.2 =
          pre ++ d :: post) →
      (∀ e ∈ pre ++ d :: post, e.type = dataPtr → ∀ mem : LocalMem,
        (P.Read e.new_imm_val e.size e.imm_val s mem (pre ++ d :: post)).2.1 =
          copyBytes rem e.new_imm_val e.size e.imm_val mem) →
      (∀ e ∈ post, e.type = dataPtr →
        e.imm_val + e.size ≤ d.imm_val ∨ d.imm_val + d.size ≤ e.imm_val) →
      ∀ (k : Nat), k < d.size → ∀ (n i : Nat) (m : Machine σ), m.remote = s →
        i + n = (pre ++ d :: post).length → i ≤ pre.length →
        (Call.updateFrom P n i (m, pre ++ d :: post)).1.localMem (d.imm_val + k) =
          rem (d.new_imm_val + k) := by
    intro rem pre post d s hd hvec hread hpost k hk n
    induction n with
    | zero =>
      intro i m _ hi hle
      simp only [List.length_append, List.length_cons] at hi
      omega
    | succ n ih =>
      intro i m hm hi hle
      obtain ⟨arg, hget, hmem, hdrop⟩ := getElem?_of_lt_drop (pre ++ d :: post) i (by omega)
      rw [Call.updateFrom]
      simp only [hget]
      rcases Nat.lt_or_eq_of_le hle with hlt | heq
      · by_cases hk' : arg.type = dataPtr
        · have hv : (P.Read arg.new_imm_val arg.size arg.imm_val m.remote m.localMem
              (pre ++ d :: post)).2.2 = pre ++ d :: post := by
            rw [hm]; exact hvec arg hmem hk' m.localMem
          simp only [Call.updateArg, if_pos hk', hv]
          exact ih (i + 1)
            { m with
              localMem := (P.Read arg.new_imm_val arg.size arg.imm_val m.remote m.localMem
                (pre ++ d :: post)).2.1,
              trace := m.trace ++ [Event.read arg.new_imm_val arg.size arg.imm_val] }
            hm (by omega) (by omega)
        · simp only [Call.updateArg, if_neg hk']
          exact ih (i + 1) m hm (by omega) (by omega)
      · have harg : arg = d := by
          subst heq
          rw [List.getElem?_append_right (le_refl _)] at hget
          simpa using hget.symm
        subst harg
        have hpostdrop : (pre ++ arg :: post).drop (i + 1) = post := by
          rw [heq]
          simp
        have hv : (P.Read arg.new_imm_val arg.size arg.imm_val m.remote m.localMem
            (pre ++ arg :: post)).2.2 = pre ++ arg :: post := by
          rw [hm]; exact hvec arg hmem hd m.localMem
        have hr : (P.Read arg.new_imm_val arg.size arg.imm_val m.remote m.localMem
            (pre ++ arg :: post)).2.1 =
            copyBytes rem arg.new_imm_val arg.size arg.imm_val m.localMem := by
          rw [hm]; exact hread arg hmem hd m.localMem
        simp only [Call.updateArg, if_pos hd, hv]
        rw [untouched rem (pre ++ arg :: post) s (arg.imm_val + k) hvec hread n
          (i + 1)
          { m with
            localMem := (P.Read arg.new_imm_val arg.size arg.imm_val m.remote m.localMem
              (pre ++ arg :: post)).2.1,
            trace := m.trace ++ [Event.read arg.new_imm_val arg.size arg.imm_val] }
          hm (by omega)
          (fun e he hty => by
            rw [hpostdrop] at he
            have := hpost e he hty
            omega)]
        simp only [hr, copyBytes]
        rw [if_pos (by omega)]
        congr 1
        omega
  rw [Call_of_success P R ptr conv m args contextThread (by rw [h1]; exact hok1)
    (by rw [h3]; exact hok2) (by rw [h4]; exact hok3)]
  simp only [Call.update, h2, h4]
  obtain ⟨hlist, htrace⟩ := stable pca.2.1 get.2.2 hvec pca.2.1.length 0
    ⟨get.2.2, m.localMem, m.trace ++ [Event.createRPCEnvironment
        (if contextThread = P.getWorker m.remote then Worker_CreateNew else Worker_None)
        contextThread.isSome,
      Event.prepareCallAssembly ptr args.arguments conv (deduceRetType (ReturnType R)),
      v, Event.getCallResult]⟩ rfl (by omega)
  refine ⟨by rw [hlist], by rw [htrace]; simp, ?_⟩
  intro bytes pre post d hsplit hd hread hpost
  have hmain : ∀ k : Nat, k < d.size →
      (Call.updateFrom P pca.2.1.length 0
        (⟨get.2.2, m.localMem, m.trace ++ [Event.createRPCEnvironment
            (if contextThread = P.getWorker m.remote then Worker_CreateNew else Worker_None)
            contextThread.isSome,
          Event.prepareCallAssembly ptr args.arguments conv (deduceRetType (ReturnType R)),
          v, Event.getCallResult]⟩, pca.2.1)).1.localMem (d.imm_val + k) =
        bytes get.2.2 (d.new_imm_val + k) := by
    intro k hk
    have hvec' := hvec
    have hread' := hread
    rw [hsplit] at hvec' hread' ⊢
    exact last_write (bytes get.2.2) pre post d get.2.2 hd hvec' hread' hpost k hk
      (pre ++ d :: post).length 0 _ rfl (by omega) (Nat.zero_le _)
  refine ⟨hmain, fun hstaged hnowrite k hk => ?_⟩
  rw [hmain k hk, (hnowrite k hk).2, (hnowrite k hk).1, hstaged k hk]

/-- Counterexample to the unamended read-back property, in four calls that all return
`STATUS_SUCCESS`.  Two pointer arguments share the local buffer at address `100` and
every read succeeds: the remote buffer of the first descriptor holds `9`, its local
buffer `1`.  One pointer argument and a failing read: the buffers differ in the same
way.  Two pointer arguments, the first read-back landing in the second element of the
argument vector: `PrepareCallAssembly` left two `dataPtr` descriptors and only one read
is performed.  One pointer argument, a code generation that does not copy the buffer
and a target that writes nothing: the remote buffer holds `0` before and after, and
the local buffer held `1` and holds `0`. -/
theorem read_back_counterexample :
    ((Call Sample.process Sample.R 7 cc_cdecl Sample.machine
        ⟨[Sample.ptrArg, Sample.ptrArg]⟩).ret = ⟨5, STATUS_SUCCESS⟩ ∧
      (Call Sample.process Sample.R 7 cc_cdecl Sample.machine
        ⟨[Sample.ptrArg, Sample.ptrArg]⟩).args.arguments[0]? =
          some ⟨dataPtr, 1, 100, 4096, []⟩ ∧
      (Call Sample.process Sample.R 7 cc_cdecl Sample.machine
        ⟨[Sample.ptrArg, Sample.ptrArg]⟩).machine.remote 4096 = 9 ∧
      (Call Sample.process Sample.R 7 cc_cdecl Sample.machine
        ⟨[Sample.ptrArg, Sample.ptrArg]⟩).machine.localMem 100 = 1) ∧
    ((Call Sample.failingRead Sample.R 7 cc_cdecl Sample.machine
        ⟨[Sample.ptrArg]⟩).ret = ⟨5, STATUS_SUCCESS⟩ ∧
      (Call Sample.failingRead Sample.R 7 cc_cdecl Sample.machine
        ⟨[Sample.ptrArg]⟩).args.arguments[0]? = some ⟨dataPtr, 1, 100, 4096, []⟩ ∧
      (Call Sample.failingRead Sample.R 7 cc_cdecl Sample.machine
        ⟨[Sample.ptrArg]⟩).machine.remote 4096 = 9 ∧
      (Call Sample.failingRead Sample.R 7 cc_cdecl Sample.machine
        ⟨[Sample.ptrArg]⟩).machine.localMem 100 = 1) ∧
    ((Call Sample.overlaidVector Sample.R 7 cc_cdecl Sample.machine
        ⟨[Sample.ptrArg, Sample.ptrArg2]⟩).ret = ⟨5, STATUS_SUCCESS⟩ ∧
      (Sample.overlaidVector.PrepareCallAssembly () 7 [Sample.ptrArg, Sample.ptrArg2]
        cc_cdecl rt_int32 Sample.machine.localMem Sample.machine.remote).2.1 =
          [⟨dataPtr, 1, 100, 4096, []⟩, ⟨dataPtr, 1, 200, 4352, []⟩] ∧
      (Call Sample.overlaidVector Sample.R 7 cc_cdecl Sample.machine
        ⟨[Sample.ptrArg, Sample.ptrArg2]⟩).machine.trace =
          [Event.createRPCEnvironment Worker_CreateNew false,
            Event.prepareCallAssembly 7 [Sample.ptrArg, Sample.ptrArg2] cc_cdecl rt_int32,
            Event.execInNewThread 8192 64,
            Event.getCallResult,
            Event.read 4096 1 100]) ∧
    ((Call Sample.unstaged Sample.R 7 cc_cdecl Sample.machine
        ⟨[Sample.ptrArg]⟩).ret = ⟨5, STATUS_SUCCESS⟩ ∧
      (Call Sample.unstaged Sample.R 7 cc_cdecl Sample.machine
        ⟨[Sample.ptrArg]⟩).args.arguments[0]? = some ⟨dataPtr, 1, 100, 4096, []⟩ ∧
      Sample.machine.remote 4096 = 0 ∧
      (Call Sample.unstaged Sample.R 7 cc_cdecl Sample.machine
        ⟨[Sample.ptrArg]⟩).machine.remote 4096 = 0 ∧
      Sample.machine.localMem 100 = 1 ∧
      (Call Sample.unstaged Sample.R 7 cc_cdecl Sample.machine
        ⟨[Sample.ptrArg]⟩).machine.localMem 100 = 0) := by
  decide

/-- The inputs of `read_back` exist: on the concrete target a call with two pointer
arguments, to the local buffers at `100` and `200`, performs the two reads in order;
the first buffer then holds the byte `9` the called function stored in its remote
buffer, and the second, which the called function did not write to, its original
byte `2`.  Evaluating the call gives the same buffers, the descriptors and the remote
bytes. -/
theorem read_back_witness :
    (Call Sample.process Sample.R 7 cc_cdecl Sample.twoBuffers
      ⟨[Sample.ptrArg, Sample.ptrArg2]⟩).machine.trace =
        [Event.createRPCEnvironment Worker_CreateNew false,
          Event.prepareCallAssembly 7 [Sample.ptrArg, Sample.ptrArg2] cc_cdecl rt_int32,
          Event.execInNewThread 8192 64,
          Event.getCallResult,
          Event.read 4096 1 100,
          Event.read 4352 1 200] ∧
    (Call Sample.process Sample.R 7 cc_cdecl Sample.twoBuffers
      ⟨[Sample.ptrArg, Sample.ptrArg2]⟩).machine.localMem 100 = 9 ∧
    (Call Sample.process Sample.R 7 cc_cdecl Sample.twoBuffers
      ⟨[Sample.ptrArg, Sample.ptrArg2]⟩).machine.localMem 200 = 2 ∧
    ((Call Sample.process Sample.R 7 cc_cdecl Sample.twoBuffers
        ⟨[Sample.ptrArg, Sample.ptrArg2]⟩).args =
          ⟨[⟨dataPtr, 1, 100, 4096, []⟩, ⟨dataPtr, 1, 200, 4352, []⟩]⟩ ∧
      (Call Sample.process Sample.R 7 cc_cdecl Sample.twoBuffers
        ⟨[Sample.ptrArg, Sample.ptrArg2]⟩).machine.remote 4096 = 9 ∧
      (Call Sample.process Sample.R 7 cc_cdecl Sample.twoBuffers
        ⟨[Sample.ptrArg, Sample.ptrArg2]⟩).machine.remote 4352 = 2 ∧
      (Call Sample.process Sample.R 7 cc_cdecl Sample.twoBuffers
        ⟨[Sample.ptrArg, Sample.ptrArg2]⟩).machine.localMem 100 = 9 ∧
      (Call Sample.process Sample.R 7 cc_cdecl Sample.twoBuffers
        ⟨[Sample.ptrArg, Sample.ptrArg2]⟩).machine.localMem 200 = 2) :=
  have h := read_back Sample.process Sample.R 7 cc_cdecl Sample.twoBuffers
    ⟨[Sample.ptrArg, Sample.ptrArg2]⟩ none _ _ _ _ _ rfl rfl (Or.inl ⟨rfl, rfl, rfl⟩) rfl
    (by decide) (by decide) (by decide) (fun _ _ _ _ => rfl)
  have hfirst := h.2.2 (fun s => s) [] [⟨dataPtr, 1, 200, 4352, []⟩]
    ⟨dataPtr, 1, 100, 4096, []⟩ (by decide) rfl (fun _ _ _ _ => rfl)
    (fun e he _ => by
      rw [List.mem_singleton] at he
      subst he
      exact Or.inr (by decide))
  have hsecond := h.2.2 (fun s => s) [⟨dataPtr, 1, 100, 4096, []⟩] []
    ⟨dataPtr, 1, 200, 4352, []⟩ (by decide) rfl (fun _ _ _ _ => rfl)
    (fun e he => absurd he (List.not_mem_nil e))
  ⟨h.2.1, hfirst.1 0 (by decide),
    hsecond.2
      (fun k hk => by
        have hk0 : k = 0 := by
          have : k < 1 := hk
          omega
        subst hk0
        decide)
      (fun k hk => by
        have hk0 : k = 0 := by
          have : k < 1 := hk
          omega
        subst hk0
        decide)
      0 (by decide),
    by decide⟩

/-- C7, as amended: a call that fails in environment setup or in the execution vehicle
returns the default value of the return type; a call that fails in `GetCallResult`
returns the value `GetCallResult` left in `result`, which it was handed holding
the default value, and so returns the default value whenever `GetCallResult` leaves
`result` as it got it. -/
theorem failure_value [Inhabited ρ] (P : Process σ α ρ) (R : CppType) (ptr : Nat)
    (conv : eCalligConvention) (m : Machine σ) (args : CallArguments)
    (contextThread : ThreadPtr) :
    (NT_SUCCESS (Call.env P contextThread m).1 = false →
      (Call P R ptr conv m args contextThread).ret.result = default) ∧
    (NT_SUCCESS (Call.env P contextThread m).1 = true →
      NT_SUCCESS (Call.executed P R ptr conv m args contextThread).1 = false →
      (Call P R ptr conv m args contextThread).ret.result = default) ∧
    (NT_SUCCESS (Call.env P contextThread m).1 = true →
      NT_SUCCESS (Call.executed P R ptr conv m args contextThread).1 = true →
      NT_SUCCESS (Call.fetched P R ptr conv m args contextThread).1 = false →
      (Call P R ptr conv m args contextThread).ret.result =
        (P.GetCallResult default
          (Call.executed P R ptr conv m args contextThread).2.2.remote).2.1 ∧
      ((P.GetCallResult default
          (Call.executed P R ptr conv m args contextThread).2.2.remote).2.1 = default →
        (Call P R ptr conv m args contextThread).ret.result = default)) := by
  refine ⟨fun henv => ?_, fun henv hexec => ?_, fun henv hexec hget => ?_⟩
  · rw [Call_of_env_failed P R ptr conv m args contextThread henv]
  · rw [Call_of_exec_failed P R ptr conv m args contextThread henv hexec]
  · rw [Call_of_fetch_failed P R ptr conv m args contextThread henv hexec hget]
    have h := (getResult_trace P (default : ρ)
      (Call.executed P R ptr conv m args contextThread).2.2).2.2.1
    exact ⟨h, fun hd => by rw [← hd]; exact h⟩

/-- Counterexample to the unamended failure-value property: on the concrete target
whose `GetCallResult` stores `7` into `result` before it reports
`STATUS_UNSUCCESSFUL`, setup and execution succeed, the call ends with that failure
status, and the returned value is `7`, not the default value `0` of `int`. -/
theorem failure_value_counterexample :
    NT_SUCCESS (Call.env Sample.failingFetch none Sample.machine).1 = true ∧
    NT_SUCCESS (Call.executed Sample.failingFetch Sample.R 7 cc_cdecl Sample.machine ⟨[]⟩
      none).1 = true ∧
    (Call Sample.failingFetch Sample.R 7 cc_cdecl Sample.machine ⟨[]⟩).ret =
      ⟨7, -1073741823⟩ ∧
    NT_SUCCESS (Call Sample.failingFetch Sample.R 7 cc_cdecl Sample.machine
      ⟨[]⟩).ret.status = false ∧
    (Call Sample.failingFetch Sample.R 7 cc_cdecl Sample.machine ⟨[]⟩).ret.result ≠
      (default : Int) := by
  decide

/-- The inputs of `failure_value` exist: the failing `GetCallResult` of the concrete
target is reached after a successful setup and execution. -/
theorem failure_value_witness :
    (Call Sample.failingFetch Sample.R 7 cc_cdecl Sample.machine ⟨[]⟩).ret.result = 7 :=
  ((failure_value Sample.failingFetch Sample.R 7 cc_cdecl Sample.machine ⟨[]⟩ none).2.2
    (by decide) (by decide) (by decide)).1

/-- C9: the call with a null `contextThread` made while the process has no worker
thread.  Environment setup is asked for `Worker_CreateNew`, and the stub then runs on
a new thread (`ExecInNewThread`), not on the worker. -/
theorem worker_mode_without_worker :
    Sample.process.getWorker Sample.machine.remote = none ∧
    (Call Sample.process Sample.R 7 cc_cdecl Sample.machine ⟨[]⟩ none).machine.trace =
      [Event.createRPCEnvironment Worker_CreateNew false,
        Event.prepareCallAssembly 7 [] cc_cdecl rt_int32,
        Event.execInNewThread 8192 64,
        Event.getCallResult] := by
  decide

theorem NT_SUCCESS_ne_of_failed (s : NTSTATUS) (h : NT_SUCCESS s = false) :
    s ≠ STATUS_SUCCESS := by
  intro hs
  rw [hs] at h
  exact absurd h (by decide)

theorem withReadAndRaw_exec (P : Process σ α ρ)
    (rd : Nat → Nat → Nat → σ → LocalMem → List AsmVariant →
      NTSTATUS × LocalMem × List AsmVariant)
    (rawNew rawWorker : Nat → Nat → σ → Nat) (rawAny : Nat → Nat → ThreadPtr → σ → Nat)
    (a : α) (contextThread : ThreadPtr) (m : Machine σ) :
    (Call.exec (P.withReadAndRaw rd rawNew rawWorker rawAny) a contextThread m).1 =
      (Call.exec P a contextThread m).1 ∧
    (Call.exec (P.withReadAndRaw rd rawNew rawWorker rawAny) a contextThread m).2.2 =
      (Call.exec P a contextThread m).2.2 := by
  unfold Call.exec
  by_cases h1 : contextThread = none
  · simp only [if_pos h1]
    exact ⟨rfl, rfl⟩
  · by_cases h2 : contextThread = P.getWorker m.remote
    · have h2' : contextThread =
          (P.withReadAndRaw rd rawNew rawWorker rawAny).getWorker m.remote := h2
      simp only [if_neg h1, if_pos h2, if_pos h2']
      exact ⟨rfl, rfl⟩
    · have h2' : ¬ contextThread =
          (P.withReadAndRaw rd rawNew rawWorker rawAny).getWorker m.remote := h2
      simp only [if_neg h1, if_neg h2, if_neg h2']
      exact ⟨rfl, rfl⟩

theorem withReadAndRaw_stages [Inhabited ρ] (P : Process σ α ρ)
    (rd : Nat → Nat → Nat → σ → LocalMem → List AsmVariant →
      NTSTATUS × LocalMem × List AsmVariant)
    (rawNew rawWorker : Nat → Nat → σ → Nat) (rawAny : Nat → Nat → ThreadPtr → σ → Nat)
    (R : CppType) (ptr : Nat) (conv : eCalligConvention) (m : Machine σ)
    (args : CallArguments) (contextThread : ThreadPtr) :
    Call.env (P.withReadAndRaw rd rawNew rawWorker rawAny) contextThread m =
      Call.env P contextThread m ∧
    (Call.executed (P.withReadAndRaw rd rawNew rawWorker rawAny) R ptr conv m args
      contextThread).1 = (Call.executed P R ptr conv m args contextThread).1 ∧
    Call.fetched (P.withReadAndRaw rd rawNew rawWorker rawAny) R ptr conv m args
      contextThread = Call.fetched P R ptr conv m args contextThread := by
  have hprep : Call.prepared (P.withReadAndRaw rd rawNew rawWorker rawAny) R ptr conv m args
      contextThread = Call.prepared P R ptr conv m args contextThread := rfl
  have hex := withReadAndRaw_exec P rd rawNew rawWorker rawAny
    (Call.prepared P R ptr conv m args contextThread).1 contextThread
    (Call.prepared P R ptr conv m args contextThread).2.2
  refine ⟨rfl, ?_, ?_⟩
  · unfold Call.executed
    rw [hprep]
    exact hex.1
  · unfold Call.fetched Call.executed
    rw [hprep, hex.2]
    rfl

/-- C10: the returned status is `STATUS_SUCCESS` exactly when the statuses that
`CreateRPCEnvironment`, the chosen execution vehicle and `GetCallResult` return are
each accepted by `NT_SUCCESS`; otherwise it is the status returned by the first of the
three that failed.  Replacing `Read` by any other function, and the raw values that
the execution vehicles report by any other values, changes neither the returned value
nor the returned status. -/
theorem returned_status [Inhabited ρ] (P : Process σ α ρ) (R : CppType) (ptr : Nat)
    (conv : eCalligConvention) (m : Machine σ) (args : CallArguments)
    (contextThread : ThreadPtr) (env : NTSTATUS × σ) (pca : α × List AsmVariant × σ)
    (run : NTSTATUS × Nat × σ) (get : NTSTATUS × ρ × σ)
    (henv : env = P.CreateRPCEnvironment
      (if contextThread = P.getWorker m.remote then Worker_CreateNew else Worker_None)
      contextThread.isSome m.remote)
    (hpca : pca = P.PrepareCallAssembly (P.GetAssembler (P.isWow64 m.remote)) ptr
      args.arguments conv (deduceRetType (ReturnType R)) m.localMem env.2)
    (hrun :
      (contextThread = none ∧
        run = P.ExecInNewThread (P.make pca.1) (P.getCodeSize pca.1) pca.2.2) ∨
      (contextThread ≠ none ∧ contextThread = P.getWorker pca.2.2 ∧
        run = P.ExecInWorkerThread (P.make pca.1) (P.getCodeSize pca.1) pca.2.2) ∨
      (contextThread ≠ none ∧ contextThread ≠ P.getWorker pca.2.2 ∧
        run = P.ExecInAnyThread (P.make pca.1) (P.getCodeSize pca.1) contextThread
          pca.2.2))
    (hget : get = P.GetCallResult default run.2.2) :
    ((Call P R ptr conv m args contextThread).ret.status = STATUS_SUCCESS ↔
      NT_SUCCESS env.1 = true ∧ NT_SUCCESS run.1 = true ∧ NT_SUCCESS get.1 = true) ∧
    (NT_SUCCESS env.1 = false →
      (Call P R ptr conv m args contextThread).ret.status = env.1) ∧
    (NT_SUCCESS env.1 = true → NT_SUCCESS run.1 = false →
      (Call P R ptr conv m args contextThread).ret.status = run.1) ∧
    (NT_SUCCESS env.1 = true → NT_SUCCESS run.1 = true → NT_SUCCESS get.1 = false →
      (Call P R ptr conv m args contextThread).ret.status = get.1) ∧
    (∀ (rd : Nat → Nat → Nat → σ → LocalMem → List AsmVariant →
          NTSTATUS × LocalMem × List AsmVariant)
        (rawNew rawWorker : Nat → Nat → σ → Nat) (rawAny : Nat → Nat → ThreadPtr → σ → Nat),
      (Call (P.withReadAndRaw rd rawNew rawWorker rawAny) R ptr conv m args
        contextThread).ret = (Call P R ptr conv m args contextThread).ret) := by
  have hst : ∀ v : Event,
      ((contextThread = none ∧
          run = P.ExecInNewThread (P.make pca.1) (P.getCodeSize pca.1) pca.2.2 ∧
          v = Event.execInNewThread (P.make pca.1) (P.getCodeSize pca.1)) ∨
        (contextThread ≠ none ∧ contextThread = P.getWorker pca.2.2 ∧
          run = P.ExecInWorkerThread (P.make pca.1) (P.getCodeSize pca.1) pca.2.2 ∧
          v = Event.execInWorkerThread (P.make pca.1) (P.getCodeSize pca.1)) ∨
        (contextThread ≠ none ∧ contextThread ≠ P.getWorker pca.2.2 ∧
          run = P.ExecInAnyThread (P.make pca.1) (P.getCodeSize pca.1) contextThread
            pca.2.2 ∧
          v = Event.execInAnyThread (P.make pca.1) (P.getCodeSize pca.1) contextThread)) →
      (Call.env P contextThread m).1 = env.1 ∧
      (Call.executed P R ptr conv m args contextThread).1 = run.1 ∧
      (Call.fetched P R ptr conv m args contextThread).1 = get.1 := by
    intro v hrunv
    have h1 : Call.env P contextThread m =
        (env.1, ⟨env.2, m.localMem, m.trace ++ [Event.createRPCEnvironment
            (if contextThread = P.getWorker m.remote then Worker_CreateNew else Worker_None)
            contextThread.isSome]⟩) := by
      rw [henv]; rfl
    have h2 : Call.prepared P R ptr conv m args contextThread =
        (pca.1, ⟨pca.2.1⟩, ⟨pca.2.2, m.localMem, m.trace ++ [Event.createRPCEnvironment
            (if contextThread = P.getWorker m.remote then Worker_CreateNew else Worker_None)
            contextThread.isSome,
          Event.prepareCallAssembly ptr args.arguments conv (deduceRetType (ReturnType R))]⟩) := by
      unfold Call.prepared
      rw [h1, hpca]
      simp [Call.prepare]
    have h3 : Call.executed P R ptr conv m args contextThread =
        (run.1, run.2.1, ⟨run.2.2, m.localMem, m.trace ++ [Event.createRPCEnvironment
            (if contextThread = P.getWorker m.remote then Worker_CreateNew else Worker_None)
            contextThread.isSome,
          Event.prepareCallAssembly ptr args.arguments conv (deduceRetType (ReturnType R)),
          v]⟩) := by
      unfold Call.executed
      rw [h2]
      unfold Call.exec
      rcases hrunv with ⟨hc, hr, hv⟩ | ⟨hc, hw, hr, hv⟩ | ⟨hc, hw, hr, hv⟩
      · simp only [if_pos hc, hr, hv]
        simp
      · simp only [if_neg hc, if_pos hw, hr, hv]
        simp
      · simp only [if_neg hc, if_neg hw, hr, hv]
        simp
    have h4 : Call.fetched P R ptr conv m args contextThread =
        ((get).1, (get).2.1, ⟨(get).2.2, m.localMem, m.trace ++ [Event.createRPCEnvironment
            (if contextThread = P.getWorker m.remote then Worker_CreateNew else Worker_None)
            contextThread.isSome,
          Event.prepareCallAssembly ptr args.arguments conv (deduceRetType (ReturnType R)),
          v, Event.getCallResult]⟩) := by
      unfold Call.fetched
      rw [h3, hget]
      simp [Call.getResult]
    exact ⟨by rw [h1], by rw [h3], by rw [h4]⟩
  have hall : (Call.env P contextThread m).1 = env.1 ∧
      (Call.executed P R ptr conv m args contextThread).1 = run.1 ∧
      (Call.fetched P R ptr conv m args contextThread).1 = get.1 := by
    rcases hrun with ⟨hc, hr⟩ | ⟨hc, hw, hr⟩ | ⟨hc, hw, hr⟩
    · exact hst _ (Or.inl ⟨hc, hr, rfl⟩)
    · exact hst _ (Or.inr (Or.inl ⟨hc, hw, hr, rfl⟩))
    · exact hst _ (Or.inr (Or.inr ⟨hc, hw, hr, rfl⟩))
  obtain ⟨s1, s3, s4⟩ := hall
  have h1 : NT_SUCCESS env.1 = false →
      (Call P R ptr conv m args contextThread).ret.status = env.1 := fun henv => by
    rw [Call_of_env_failed P R ptr conv m args contextThread (by rw [s1]; exact henv), s1]
  have h2 : NT_SUCCESS env.1 = true → NT_SUCCESS run.1 = false →
      (Call P R ptr conv m args contextThread).ret.status = run.1 := fun henv hexec => by
    rw [Call_of_exec_failed P R ptr conv m args contextThread (by rw [s1]; exact henv)
      (by rw [s3]; exact hexec), s3]
  have h3 : NT_SUCCESS env.1 = true → NT_SUCCESS run.1 = true → NT_SUCCESS get.1 = false →
      (Call P R ptr conv m args contextThread).ret.status = get.1 := fun henv hexec hget => by
    rw [Call_of_fetch_failed P R ptr conv m args contextThread (by rw [s1]; exact henv)
      (by rw [s3]; exact hexec) (by rw [s4]; exact hget), s4]
  refine ⟨?_, h1, h2, h3, ?_⟩
  · constructor
    · intro hst
      by_cases henv : NT_SUCCESS env.1 = true
      · by_cases hexec : NT_SUCCESS run.1 = true
        · by_cases hget : NT_SUCCESS get.1 = true
          · exact ⟨henv, hexec, hget⟩
          · rw [Bool.not_eq_true] at hget
            rw [h3 henv hexec hget] at hst
            exact absurd hst (NT_SUCCESS_ne_of_failed _ hget)
        · rw [Bool.not_eq_true] at hexec
          rw [h2 henv hexec] at hst
          exact absurd hst (NT_SUCCESS_ne_of_failed _ hexec)
      · rw [Bool.not_eq_true] at henv
        rw [h1 henv] at hst
        exact absurd hst (NT_SUCCESS_ne_of_failed _ henv)
    · rintro ⟨henv, hexec, hget⟩
      rw [Call_of_success P R ptr conv m args contextThread (by rw [s1]; exact henv)
        (by rw [s3]; exact hexec) (by rw [s4]; exact hget)]
  · intro rd rawNew rawWorker rawAny
    obtain ⟨e1, e2, e3⟩ := withReadAndRaw_stages P rd rawNew rawWorker rawAny R ptr conv m
      args contextThread
    by_cases henv : NT_SUCCESS (Call.env P contextThread m).1 = true
    · by_cases hexec : NT_SUCCESS (Call.executed P R ptr conv m args contextThread).1 = true
      · by_cases hget : NT_SUCCESS (Call.fetched P R ptr conv m args contextThread).1 = true
        · rw [Call_of_success P R ptr conv m args contextThread henv hexec hget,
            Call_of_success _ R ptr conv m args contextThread (by rw [e1]; exact henv)
              (by rw [e2]; exact hexec) (by rw [e3]; exact hget), e3]
        · rw [Bool.not_eq_true] at hget
          rw [Call_of_fetch_failed P R ptr conv m args contextThread henv hexec hget,
            Call_of_fetch_failed _ R ptr conv m args contextThread (by rw [e1]; exact henv)
              (by rw [e2]; exact hexec) (by rw [e3]; exact hget), e3]
      · rw [Bool.not_eq_true] at hexec
        rw [Call_of_exec_failed P R ptr conv m args contextThread henv hexec,
          Call_of_exec_failed _ R ptr conv m args contextThread (by rw [e1]; exact henv)
            (by rw [e2]; exact hexec), e2]
    · rw [Bool.not_eq_true] at henv
      rw [Call_of_env_failed P R ptr conv m args contextThread henv,
        Call_of_env_failed _ R ptr conv m args contextThread (by rw [e1]; exact henv), e1]

/-- The inputs of `returned_status` exist, on each of the four ways out of the call:
the concrete target returns `STATUS_SUCCESS`, and with a failing `CreateRPCEnvironment`,
a failing `ExecInNewThread` or a failing `GetCallResult` it returns the status
`STATUS_UNSUCCESSFUL` of that step.  Evaluating the four calls gives these statuses
and the returned values. -/
theorem returned_status_witness :
    (Call Sample.process Sample.R 7 cc_cdecl Sample.machine ⟨[Sample.ptrArg]⟩).ret.status =
      STATUS_SUCCESS ∧
    (Call Sample.failingEnv Sample.R 7 cc_cdecl Sample.machine ⟨[Sample.ptrArg]⟩).ret.status =
      -1073741823 ∧
    (Call Sample.failingExec Sample.R 7 cc_cdecl Sample.machine ⟨[Sample.ptrArg]⟩).ret.status =
      -1073741823 ∧
    (Call Sample.failingFetch Sample.R 7 cc_cdecl Sample.machine
      ⟨[Sample.ptrArg]⟩).ret.status = -1073741823 ∧
    ((Call Sample.process Sample.R 7 cc_cdecl Sample.machine ⟨[Sample.ptrArg]⟩).ret =
        ⟨5, 0⟩ ∧
      (Call Sample.failingEnv Sample.R 7 cc_cdecl Sample.machine ⟨[Sample.ptrArg]⟩).ret =
        ⟨0, -1073741823⟩ ∧
      (Call Sample.failingExec Sample.R 7 cc_cdecl Sample.machine ⟨[Sample.ptrArg]⟩).ret =
        ⟨0, -1073741823⟩ ∧
      (Call Sample.failingFetch Sample.R 7 cc_cdecl Sample.machine ⟨[Sample.ptrArg]⟩).ret =
        ⟨7, -1073741823⟩) :=
  ⟨(returned_status Sample.process Sample.R 7 cc_cdecl Sample.machine ⟨[Sample.ptrArg]⟩
      none _ _ _ _ rfl rfl (Or.inl ⟨rfl, rfl⟩) rfl).1.2 ⟨by decide, by decide, by decide⟩,
    (returned_status Sample.failingEnv Sample.R 7 cc_cdecl Sample.machine ⟨[Sample.ptrArg]⟩
      none _ _ _ _ rfl rfl (Or.inl ⟨rfl, rfl⟩) rfl).2.1 (by decide),
    (returned_status Sample.failingExec Sample.R 7 cc_cdecl Sample.machine ⟨[Sample.ptrArg]⟩
      none _ _ _ _ rfl rfl (Or.inl ⟨rfl, rfl⟩) rfl).2.2.1 (by decide) (by decide),
    (returned_status Sample.failingFetch Sample.R 7 cc_cdecl Sample.machine ⟨[Sample.ptrArg]⟩
      none _ _ _ _ rfl rfl (Or.inl ⟨rfl, rfl⟩) rfl).2.2.2.1 (by decide) (by decide)
      (by decide),
    by decide⟩

end RemoteFunctionBase

end blackbone
